import Mathlib

/-!
Shallow embedding of the aggregation-and-tiering engine of
`src/utils/dataUtils.ts` (function `processCategorizedData`).

Modelling conventions:

* JS strings are `List Char` (abbreviated `Str`); the numeric metrics carried
  by input rows are exact integers (`Int`).
* The derived fractional values (`averageClicks` and the two contribution
  percentages), which the source rounds to two decimals via
  `parseFloat(x.toFixed(2))`, are represented exactly in fixed point as the
  integer `100 * value` (see `round2x100`).  Sorting by the rounded average is
  order-isomorphic to sorting by this integer, so tier assignment is
  unchanged; the bridge lemma `round2x100_spec` relates the fixed-point value
  to the rational rounded to two decimals.
* The plain-object accumulators (`themeTotals`, `entityTotals`, ...) are
  insertion-ordered association lists, matching JS object key enumeration for
  ordinary string keys.
* `Array.prototype.sort` (required stable since ES2019) is modelled by a
  stable insertion sort; for a fixed comparator the stable-sorted permutation
  is unique, so this agrees extensionally with the engine's sort calls.
* The source builds `new Map(categorizedResults.map(...))`; later entries
  overwrite earlier ones, so lookup returns the last matching item.
-/

abbrev Str : Type := List Char

/-- Embeds `CsvRow` from `src/types.ts` plus the optional `Title` and
`Author Name` fields that `parseCsv` attaches. -/
structure CsvRow where
  URL : Str
  Clicks : Int
  Impressions : Int
  Title : Option Str
  AuthorName : Option Str
deriving DecidableEq

/-- Embeds `CategorizedItem` from `src/types.ts`. -/
structure CategorizedItem where
  url : Str
  contentTheme : Str
  entity : Str
  subEntity : Str
deriving DecidableEq

/-- An element of the source's `mergedData`: a `CsvRow` with the three
classification labels attached (`CategorizedUrlData` minus the two
contribution-percentage fields). -/
structure MergedRow where
  URL : Str
  Clicks : Int
  Impressions : Int
  Title : Option Str
  AuthorName : Option Str
  ContentTheme : Str
  Entity : Str
  SubEntity : Str
deriving DecidableEq

/-- Embeds `CategorizedUrlData`: a merged row plus the two contribution
percentages, stored in fixed point (`100 * percentage`). -/
structure CategorizedUrlData extends MergedRow where
  Clicks_Contribution_Percentage100 : Int
  Impressions_Contribution_Percentage100 : Int
deriving DecidableEq

/-- The `performanceTier` union type `'top' | 'potential' | 'standard'`. -/
inductive Tier where
  | top
  | potential
  | standard
deriving DecidableEq

/-- Embeds the source's per-key accumulator record
`{ clicks: number, impressions: number, count: number }`.  (The Discover
accumulators in the source track only `clicks` and `count`; there the
`impressions` slot is fixed to `0` and never read.) -/
structure Totals where
  clicks : Int
  impressions : Int
  count : Nat
deriving DecidableEq

instance : Inhabited Totals := ⟨⟨0, 0, 0⟩⟩

/-- A `CategorySummary` before tier assignment
(`Omit<CategorySummary, 'performanceTier'>`). -/
structure CategorySummaryBase where
  ContentTheme : Str
  articleCount : Nat
  totalClicks : Int
  totalImpressions : Int
  averageClicks100 : Int
deriving DecidableEq

/-- Embeds `CategorySummary` from `src/types.ts`. -/
structure CategorySummary extends CategorySummaryBase where
  performanceTier : Tier
deriving DecidableEq

/-- A `SubcategorySummary` before tier assignment. -/
structure SubcategorySummaryBase where
  Entity : Str
  ParentTheme : Str
  articleCount : Nat
  totalClicks : Int
  totalImpressions : Int
  averageClicks100 : Int
deriving DecidableEq

/-- Embeds `SubcategorySummary` (theme+entity level). -/
structure SubcategorySummary extends SubcategorySummaryBase where
  performanceTier : Tier
deriving DecidableEq

/-- An `EntityAnalysisSummary` (global entity level) before tier assignment. -/
structure EntityAnalysisSummaryBase where
  Entity : Str
  articleCount : Nat
  totalClicks : Int
  averageClicks100 : Int
deriving DecidableEq

/-- Embeds `EntityAnalysisSummary`. -/
structure EntityAnalysisSummary extends EntityAnalysisSummaryBase where
  performanceTier : Tier
deriving DecidableEq

/-- Embeds `AuthorSummary` (no tier field in the source). -/
structure AuthorSummary where
  authorName : Str
  articleCount : Nat
  totalClicks : Int
  totalImpressions : Int
  averageClicks100 : Int
deriving DecidableEq

/-- A `DiscoverCategorySummary` before tier assignment. -/
structure DiscoverCategorySummaryBase where
  ContentTheme : Str
  articleCount : Nat
  totalClicks : Int
deriving DecidableEq

/-- Embeds `DiscoverCategorySummary`. -/
structure DiscoverCategorySummary extends DiscoverCategorySummaryBase where
  performanceTier : Tier
deriving DecidableEq

/-- A `DiscoverSubcategorySummary` before tier assignment. -/
structure DiscoverSubcategorySummaryBase where
  Entity : Str
  ParentTheme : Str
  articleCount : Nat
  totalClicks : Int
deriving DecidableEq

/-- Embeds `DiscoverSubcategorySummary`. -/
structure DiscoverSubcategorySummary extends DiscoverSubcategorySummaryBase where
  performanceTier : Tier
deriving DecidableEq

/-- Fixed point rounding: the integer `100 * parseFloat((num/den).toFixed(2))`
for a positive denominator, i.e. `floor((num/den) * 100 + 1/2)` computed as an
integer Euclidean division (for `den > 0` this is the floor division). -/
def round2x100 (num den : Int) : Int :=
  (200 * num + den) / (2 * den)

/-- The source's `'top' | 'potential'` constant threshold
`ARTICLE_COUNT_THRESHOLD = 2` (also `DISCOVER_ARTICLE_COUNT_THRESHOLD`). -/
def ARTICLE_COUNT_THRESHOLD : Nat := 2

/-- The source's `TOP_N = 5` (also `DISCOVER_TOP_N`). -/
def TOP_N : Nat := 5

/-- Insert into a descending-by-`f` list, before the first element that does
not rank strictly higher: the insertion step of a stable descending sort. -/
def insertDesc (f : α → Int) (x : α) : List α → List α
  | [] => [x]
  | y :: ys => if f y ≤ f x then x :: y :: ys else y :: insertDesc f x ys

/-- Stable sort, descending by `f`: models the source's
`.sort((a, b) => f(b) - f(a))` calls (stable per ES2019; the stable-sorted
permutation for a comparator is unique, so insertion sort is extensionally
the engine's sort). -/
def sortDescBy (f : α → Int) : List α → List α
  | [] => []
  | x :: xs => insertDesc f x (sortDescBy f xs)

/-- Splits a character list at every (left-to-right, non-overlapping)
occurrence of the two-character delimiter `"::"`, exactly as JS
`key.split('::')` does. -/
def splitSep : List Char → List (List Char)
  | [] => [[]]
  | [c] => [[c]]
  | c1 :: c2 :: rest =>
    if c1 = ':' ∧ c2 = ':' then [] :: splitSep rest
    else
      match splitSep (c2 :: rest) with
      | [] => [[c1]]
      | t :: ts => (c1 :: t) :: ts

/-- The composite grouping key `` `${theme}::${entity}` ``. -/
def entityKeyStr (theme entity : Str) : Str :=
  theme ++ [':', ':'] ++ entity

/-- The `const [parentTheme, entity] = key.split('::')` destructuring: the
first two segments of the split.  Keys produced by `entityKeyStr` always
split into at least two segments, so the one-segment fallback (where JS
would yield `undefined` for the entity) is unreachable on real keys. -/
def displayPair (key : Str) : Str × Str :=
  match splitSep key with
  | p :: e :: _ => (p, e)
  | [p] => (p, [])
  | [] => ([], [])

/-- Association-list lookup, `m[k]` on the accumulator object. -/
def lookupTotals (m : List (Str × Totals)) (k : Str) : Option Totals :=
  (m.find? (fun p => p.1 = k)).map (fun p => p.2)

/-- One accumulation step on the keyed accumulator object: initialize the key
slot to zeros if absent, then add the row's clicks/impressions and bump the
count — preserving JS object insertion order of keys. -/
def bump (m : List (Str × Totals)) (k : Str) (c i : Int) : List (Str × Totals) :=
  match m with
  | [] => [(k, ⟨c, i, 1⟩)]
  | (k', t) :: rest =>
    if k' = k then
      (k', ⟨t.clicks + c, t.impressions + i, t.count + 1⟩) :: rest
    else
      (k', t) :: bump rest k c i

/-- The single-pass keyed accumulation loop (`mergedData.forEach(...)` /
`discoverTop100Urls.forEach(...)`): `key` returns `none` when the row is
skipped for this grouping (only the author grouping skips rows), `clk`/`imp`
extract the summed metrics. -/
def accumTotals (key : ρ → Option Str) (clk imp : ρ → Int) (rows : List ρ) :
    List (Str × Totals) :=
  rows.foldl
    (fun m r =>
      match key r with
      | some k => bump m k (clk r) (imp r)
      | none => m)
    []

/-- The fixed placeholder labels for unclassified URLs. -/
def uncategorizedLabel : Str := "Uncategorized".data

/-- The fixed placeholder sub-entity for unclassified URLs. -/
def naLabel : Str := "N/A".data

/-- Lookup in `categorizedMap`: the `Map` built from `categorizedResults`
keeps the last entry per URL (later map-constructor entries overwrite). -/
def categorizedMapGet (items : List CategorizedItem) (u : Str) :
    Option (Str × Str × Str) :=
  (items.reverse.find? (fun it => it.url = u)).map
    (fun it => (it.contentTheme, it.entity, it.subEntity))

/-- One step of the source's `mergedData` map: a row joined with its
classification, or with the `Uncategorized`/`N/A` placeholders
(`categorizedMap.get(row.URL) || { ... }`). -/
def mergeRow (items : List CategorizedItem) (row : CsvRow) : MergedRow :=
  match categorizedMapGet items row.URL with
  | some (t, e, s) =>
    { URL := row.URL, Clicks := row.Clicks, Impressions := row.Impressions,
      Title := row.Title, AuthorName := row.AuthorName,
      ContentTheme := t, Entity := e, SubEntity := s }
  | none =>
    { URL := row.URL, Clicks := row.Clicks, Impressions := row.Impressions,
      Title := row.Title, AuthorName := row.AuthorName,
      ContentTheme := uncategorizedLabel, Entity := uncategorizedLabel,
      SubEntity := naLabel }

/-- The source's `mergedData`: every input row, in order, joined with its
classification or the `Uncategorized`/`N/A` placeholders. -/
def mergedData (items : List CategorizedItem) (rows : List CsvRow) :
    List MergedRow :=
  rows.map (mergeRow items)

/-- Theme grouping key (always present). -/
def themeKey (r : MergedRow) : Option Str := some r.ContentTheme

/-- Compound theme+entity grouping key `` `${row.ContentTheme}::${row.Entity}` ``. -/
def entityKey (r : MergedRow) : Option Str :=
  some (entityKeyStr r.ContentTheme r.Entity)

/-- Global entity grouping key. -/
def globalEntityKey (r : MergedRow) : Option Str := some r.Entity

/-- Author grouping key: rows whose `Author Name` is absent or empty (falsy in
`if (row['Author Name'])`) are skipped. -/
def authorKey (r : MergedRow) : Option Str :=
  match r.AuthorName with
  | some a => if a = [] then none else some a
  | none => none

/-- The source's `themeTotals` accumulator. -/
def themeTotals (mrows : List MergedRow) : List (Str × Totals) :=
  accumTotals themeKey (fun r => r.Clicks) (fun r => r.Impressions) mrows

/-- The source's `entityTotals` accumulator (key `"Theme::Entity"`). -/
def entityTotals (mrows : List MergedRow) : List (Str × Totals) :=
  accumTotals entityKey (fun r => r.Clicks) (fun r => r.Impressions) mrows

/-- The source's `globalEntityTotals` accumulator. -/
def globalEntityTotals (mrows : List MergedRow) : List (Str × Totals) :=
  accumTotals globalEntityKey (fun r => r.Clicks) (fun r => r.Impressions) mrows

/-- The source's `authorTotals` accumulator. -/
def authorTotals (mrows : List MergedRow) : List (Str × Totals) :=
  accumTotals authorKey (fun r => r.Clicks) (fun r => r.Impressions) mrows

/-- The source's `hasAuthorData` flag: set when some row has a truthy
`Author Name`. -/
def hasAuthorData (mrows : List MergedRow) : Bool :=
  mrows.any (fun r => (authorKey r).isSome)

/-- The source's `categorizedUrls`: each merged row with its contribution
percentages relative to its theme group's totals
(`themeTotals[row.ContentTheme]?.clicks || 0`, guarded to `0` when the group
total is not positive). -/
def categorizedUrls (mrows : List MergedRow) : List CategorizedUrlData :=
  let tt := themeTotals mrows
  mrows.map (fun r =>
    let totalThemeClicks := ((lookupTotals tt r.ContentTheme).map
      (fun t => t.clicks)).getD 0
    let totalThemeImpressions := ((lookupTotals tt r.ContentTheme).map
      (fun t => t.impressions)).getD 0
    { toMergedRow := r,
      Clicks_Contribution_Percentage100 :=
        if 0 < totalThemeClicks then round2x100 (r.Clicks * 100) totalThemeClicks
        else 0,
      Impressions_Contribution_Percentage100 :=
        if 0 < totalThemeImpressions then
          round2x100 (r.Impressions * 100) totalThemeImpressions
        else 0 })

/-- The guarded rounded average
`totals.count > 0 ? parseFloat((totals.clicks / totals.count).toFixed(2)) : 0`,
in fixed point. -/
def avg100 (clicks : Int) (count : Nat) : Int :=
  if 0 < count then round2x100 clicks (count : Int) else 0

/-- The source's `allThemeSummaries` (one per `Object.entries(themeTotals)`,
in key insertion order). -/
def allThemeSummaries (mrows : List MergedRow) : List CategorySummaryBase :=
  (themeTotals mrows).map (fun p =>
    { ContentTheme := p.1, articleCount := p.2.count, totalClicks := p.2.clicks,
      totalImpressions := p.2.impressions,
      averageClicks100 := avg100 p.2.clicks p.2.count })

/-- The source's `themeTopPerformersSet` (as a list of themes; JS `Set.has`
is list membership). -/
def themeTopPerformersSet (mrows : List MergedRow) : List Str :=
  (((sortDescBy (fun s => s.averageClicks100)
      ((allThemeSummaries mrows).filter
        (fun s => ARTICLE_COUNT_THRESHOLD < s.articleCount))).take TOP_N).map
    (fun s => s.ContentTheme))

/-- The source's `themePotentialPerformersSet`. -/
def themePotentialPerformersSet (mrows : List MergedRow) : List Str :=
  (((sortDescBy (fun s => s.averageClicks100)
      ((allThemeSummaries mrows).filter
        (fun s => s.articleCount ≤ ARTICLE_COUNT_THRESHOLD))).take TOP_N).map
    (fun s => s.ContentTheme))

/-- The source's `categorySummaries`: tiers assigned by membership in the two
performer sets, then sorted descending by `totalClicks`. -/
def categorySummaries (mrows : List MergedRow) : List CategorySummary :=
  sortDescBy (fun s => s.totalClicks)
    ((allThemeSummaries mrows).map (fun s =>
      { toCategorySummaryBase := s,
        performanceTier :=
          if s.ContentTheme ∈ themeTopPerformersSet mrows then Tier.top
          else if s.ContentTheme ∈ themePotentialPerformersSet mrows then
            Tier.potential
          else Tier.standard }))

/-- The source's `allEntitySummaries`: one per `Object.entries(entityTotals)`,
with `const [parentTheme, entity] = key.split('::')`. -/
def allEntitySummaries (mrows : List MergedRow) : List SubcategorySummaryBase :=
  (entityTotals mrows).map (fun p =>
    { Entity := (displayPair p.1).2, ParentTheme := (displayPair p.1).1,
      articleCount := p.2.count, totalClicks := p.2.clicks,
      totalImpressions := p.2.impressions,
      averageClicks100 := avg100 p.2.clicks p.2.count })

/-- The source's `entityTopPerformersSet`: recombined keys
`` `${s.ParentTheme}::${s.Entity}` `` of the top pool. -/
def entityTopPerformersSet (mrows : List MergedRow) : List Str :=
  (((sortDescBy (fun s => s.averageClicks100)
      ((allEntitySummaries mrows).filter
        (fun s => ARTICLE_COUNT_THRESHOLD < s.articleCount))).take TOP_N).map
    (fun s => entityKeyStr s.ParentTheme s.Entity))

/-- The source's `entityPotentialPerformersSet`. -/
def entityPotentialPerformersSet (mrows : List MergedRow) : List Str :=
  (((sortDescBy (fun s => s.averageClicks100)
      ((allEntitySummaries mrows).filter
        (fun s => s.articleCount ≤ ARTICLE_COUNT_THRESHOLD))).take TOP_N).map
    (fun s => entityKeyStr s.ParentTheme s.Entity))

/-- The source's `subcategorySummaries`. -/
def subcategorySummaries (mrows : List MergedRow) : List SubcategorySummary :=
  sortDescBy (fun s => s.totalClicks)
    ((allEntitySummaries mrows).map (fun s =>
      { toSubcategorySummaryBase := s,
        performanceTier :=
          if entityKeyStr s.ParentTheme s.Entity ∈ entityTopPerformersSet mrows
          then Tier.top
          else if entityKeyStr s.ParentTheme s.Entity ∈
              entityPotentialPerformersSet mrows then Tier.potential
          else Tier.standard }))

/-- The source's `allGlobalEntitySummaries`. -/
def allGlobalEntitySummaries (mrows : List MergedRow) :
    List EntityAnalysisSummaryBase :=
  (globalEntityTotals mrows).map (fun p =>
    { Entity := p.1, articleCount := p.2.count, totalClicks := p.2.clicks,
      averageClicks100 := avg100 p.2.clicks p.2.count })

/-- The source's `globalEntityTopPerformersSet`. -/
def globalEntityTopPerformersSet (mrows : List MergedRow) : List Str :=
  (((sortDescBy (fun s => s.averageClicks100)
      ((allGlobalEntitySummaries mrows).filter
        (fun s => ARTICLE_COUNT_THRESHOLD < s.articleCount))).take TOP_N).map
    (fun s => s.Entity))

/-- The source's `globalEntityPotentialPerformersSet`. -/
def globalEntityPotentialPerformersSet (mrows : List MergedRow) : List Str :=
  (((sortDescBy (fun s => s.averageClicks100)
      ((allGlobalEntitySummaries mrows).filter
        (fun s => s.articleCount ≤ ARTICLE_COUNT_THRESHOLD))).take TOP_N).map
    (fun s => s.Entity))

/-- The source's `entitySummaries` (global entity analysis). -/
def entitySummaries (mrows : List MergedRow) : List EntityAnalysisSummary :=
  sortDescBy (fun s => s.totalClicks)
    ((allGlobalEntitySummaries mrows).map (fun s =>
      { toEntityAnalysisSummaryBase := s,
        performanceTier :=
          if s.Entity ∈ globalEntityTopPerformersSet mrows then Tier.top
          else if s.Entity ∈ globalEntityPotentialPerformersSet mrows then
            Tier.potential
          else Tier.standard }))

/-- The source's `authorSummaries` (empty when no row carried author data). -/
def authorSummaries (mrows : List MergedRow) : List AuthorSummary :=
  if hasAuthorData mrows then
    sortDescBy (fun s => s.totalClicks)
      ((authorTotals mrows).map (fun p =>
        { authorName := p.1, articleCount := p.2.count,
          totalClicks := p.2.clicks, totalImpressions := p.2.impressions,
          averageClicks100 := avg100 p.2.clicks p.2.count }))
  else []

/-- The source's `discoverTop100Urls`:
`[...categorizedUrls].sort((a, b) => b.Clicks - a.Clicks).slice(0, 100)`. -/
def discoverTop100Urls (curls : List CategorizedUrlData) :
    List CategorizedUrlData :=
  (sortDescBy (fun u => u.Clicks) curls).take 100

/-- The source's `discoverThemeTotals` accumulator (clicks and count only;
the unused impressions slot is fixed to `0`). -/
def discoverThemeTotals (curls : List CategorizedUrlData) :
    List (Str × Totals) :=
  accumTotals (fun u => some u.ContentTheme) (fun u => u.Clicks) (fun _ => 0)
    (discoverTop100Urls curls)

/-- The source's `discoverEntityTotals` accumulator. -/
def discoverEntityTotals (curls : List CategorizedUrlData) :
    List (Str × Totals) :=
  accumTotals (fun u => some (entityKeyStr u.ContentTheme u.Entity))
    (fun u => u.Clicks) (fun _ => 0) (discoverTop100Urls curls)

/-- The source's `allDiscoverThemeSummaries` as first constructed (insertion
order). -/
def allDiscoverThemeSummaries (curls : List CategorizedUrlData) :
    List DiscoverCategorySummaryBase :=
  (discoverThemeTotals curls).map (fun p =>
    { ContentTheme := p.1, articleCount := p.2.count,
      totalClicks := p.2.clicks })

/-- The state of the `allDiscoverThemeSummaries` array after the source's
in-place `.sort((a, b) => b.totalClicks - a.totalClicks)` mutates it while
computing `discoverThemeTopPerformers`. -/
def sortedDiscoverThemeSummaries (curls : List CategorizedUrlData) :
    List DiscoverCategorySummaryBase :=
  sortDescBy (fun s => s.totalClicks) (allDiscoverThemeSummaries curls)

/-- The source's `discoverThemeTopPerformers`: the first `DISCOVER_TOP_N`
summaries by `totalClicks` (one single pool — no article-count filter). -/
def discoverThemeTopPerformers (curls : List CategorizedUrlData) :
    List DiscoverCategorySummaryBase :=
  (sortedDiscoverThemeSummaries curls).take TOP_N

/-- The tier of one discover theme summary: `let tier = 'standard'; if
(topPerformerInfo) tier = topPerformerInfo.articleCount > THRESHOLD ? 'top'
: 'potential'`, where `topPerformerInfo` is the `find` over the top
performers by `ContentTheme`. -/
def discoverThemeTierFor (tops : List DiscoverCategorySummaryBase)
    (s : DiscoverCategorySummaryBase) : Tier :=
  match tops.find? (fun p => p.ContentTheme = s.ContentTheme) with
  | some p =>
    if ARTICLE_COUNT_THRESHOLD < p.articleCount then Tier.top
    else Tier.potential
  | none => Tier.standard

/-- The source's `discoverCategorySummaries`: each summary annotated with its
tier, then sorted descending by `totalClicks`.  The `.map` runs over the
already-mutated (sorted) array. -/
def discoverCategorySummaries (curls : List CategorizedUrlData) :
    List DiscoverCategorySummary :=
  sortDescBy (fun s => s.totalClicks)
    ((sortedDiscoverThemeSummaries curls).map (fun s =>
      { toDiscoverCategorySummaryBase := s,
        performanceTier :=
          discoverThemeTierFor (discoverThemeTopPerformers curls) s }))

/-- The source's `allDiscoverEntitySummaries` (insertion order). -/
def allDiscoverEntitySummaries (curls : List CategorizedUrlData) :
    List DiscoverSubcategorySummaryBase :=
  (discoverEntityTotals curls).map (fun p =>
    { Entity := (displayPair p.1).2, ParentTheme := (displayPair p.1).1,
      articleCount := p.2.count, totalClicks := p.2.clicks })

/-- The discover entity summaries after the in-place sort. -/
def sortedDiscoverEntitySummaries (curls : List CategorizedUrlData) :
    List DiscoverSubcategorySummaryBase :=
  sortDescBy (fun s => s.totalClicks) (allDiscoverEntitySummaries curls)

/-- The source's `discoverEntityTopPerformers`. -/
def discoverEntityTopPerformers (curls : List CategorizedUrlData) :
    List DiscoverSubcategorySummaryBase :=
  (sortedDiscoverEntitySummaries curls).take TOP_N

/-- The tier of one discover entity summary: the `find` over the top
performers matches on both `Entity` and `ParentTheme`. -/
def discoverEntityTierFor (tops : List DiscoverSubcategorySummaryBase)
    (s : DiscoverSubcategorySummaryBase) : Tier :=
  match tops.find?
      (fun p => p.Entity = s.Entity ∧ p.ParentTheme = s.ParentTheme) with
  | some p =>
    if ARTICLE_COUNT_THRESHOLD < p.articleCount then Tier.top
    else Tier.potential
  | none => Tier.standard

/-- The source's `discoverSubcategorySummaries`: each summary annotated with
its tier, then sorted descending by `totalClicks`. -/
def discoverSubcategorySummaries (curls : List CategorizedUrlData) :
    List DiscoverSubcategorySummary :=
  sortDescBy (fun s => s.totalClicks)
    ((sortedDiscoverEntitySummaries curls).map (fun s =>
      { toDiscoverSubcategorySummaryBase := s,
        performanceTier :=
          discoverEntityTierFor (discoverEntityTopPerformers curls) s }))

/-- End-to-end composition from the inputs of `processCategorizedData`. -/
def categorizedUrlsOf (items : List CategorizedItem) (rows : List CsvRow) :
    List CategorizedUrlData :=
  categorizedUrls (mergedData items rows)

/-- The `categorySummaries` output of `processCategorizedData`. -/
def categorySummariesOf (items : List CategorizedItem) (rows : List CsvRow) :
    List CategorySummary :=
  categorySummaries (mergedData items rows)

/-- The `subcategorySummaries` output of `processCategorizedData`. -/
def subcategorySummariesOf (items : List CategorizedItem) (rows : List CsvRow) :
    List SubcategorySummary :=
  subcategorySummaries (mergedData items rows)

/-- The `entitySummaries` output of `processCategorizedData`. -/
def entitySummariesOf (items : List CategorizedItem) (rows : List CsvRow) :
    List EntityAnalysisSummary :=
  entitySummaries (mergedData items rows)

/-- The `authorSummaries` output of `processCategorizedData`. -/
def authorSummariesOf (items : List CategorizedItem) (rows : List CsvRow) :
    List AuthorSummary :=
  authorSummaries (mergedData items rows)

/-- The `discoverTop100Urls` output of `processCategorizedData`. -/
def discoverTop100UrlsOf (items : List CategorizedItem) (rows : List CsvRow) :
    List CategorizedUrlData :=
  discoverTop100Urls (categorizedUrlsOf items rows)

/-- The `discoverCategorySummaries` output of `processCategorizedData`. -/
def discoverCategorySummariesOf (items : List CategorizedItem)
    (rows : List CsvRow) : List DiscoverCategorySummary :=
  discoverCategorySummaries (categorizedUrlsOf items rows)

/-- The `discoverSubcategorySummaries` output of `processCategorizedData`. -/
def discoverSubcategorySummariesOf (items : List CategorizedItem)
    (rows : List CsvRow) : List DiscoverSubcategorySummary :=
  discoverSubcategorySummaries (categorizedUrlsOf items rows)

/-! Lemmas about the stable descending sort. -/

theorem insertDesc_perm (f : α → Int) (x : α) (l : List α) :
    (insertDesc f x l).Perm (x :: l) := by
  induction l with
  | nil => exact List.Perm.refl _
  | cons y ys ih =>
    by_cases h : f y ≤ f x
    · simp [insertDesc, h]
    · simp only [insertDesc, h, if_false]
      exact (ih.cons y).trans (List.Perm.swap x y ys)

theorem sortDescBy_perm (f : α → Int) (l : List α) :
    (sortDescBy f l).Perm l := by
  induction l with
  | nil => exact List.Perm.refl _
  | cons x xs ih =>
    exact (insertDesc_perm f x (sortDescBy f xs)).trans (ih.cons x)

theorem mem_insertDesc {f : α → Int} {x a : α} {l : List α} :
    a ∈ insertDesc f x l ↔ a = x ∨ a ∈ l := by
  rw [(insertDesc_perm f x l).mem_iff, List.mem_cons]

theorem pairwise_insertDesc {f : α → Int} {x : α} {l : List α}
    (h : l.Pairwise (fun a b => f b ≤ f a)) :
    (insertDesc f x l).Pairwise (fun a b => f b ≤ f a) := by
  induction l with
  | nil => simp [insertDesc]
  | cons y ys ih =>
    rcases List.pairwise_cons.mp h with ⟨hy, hys⟩
    by_cases hle : f y ≤ f x
    · simp only [insertDesc, hle, if_true]
      refine List.pairwise_cons.mpr ⟨?_, h⟩
      intro b hb
      rcases List.mem_cons.mp hb with rfl | hb
      · exact hle
      · exact le_trans (hy b hb) hle
    · simp only [insertDesc, hle, if_false]
      refine List.pairwise_cons.mpr ⟨?_, ih hys⟩
      intro b hb
      rcases mem_insertDesc.mp hb with rfl | hb
      · exact le_of_lt (lt_of_not_le hle)
      · exact hy b hb

theorem sortDescBy_sorted (f : α → Int) (l : List α) :
    (sortDescBy f l).Pairwise (fun a b => f b ≤ f a) := by
  induction l with
  | nil => simp [sortDescBy]
  | cons x xs ih => exact pairwise_insertDesc ih

theorem sortDescBy_length (f : α → Int) (l : List α) :
    (sortDescBy f l).length = l.length :=
  (sortDescBy_perm f l).length_eq

/-! Lemmas about the `"::"` splitter. -/

theorem splitSep_ne_nil (l : List Char) : splitSep l ≠ [] := by
  induction l using splitSep.induct with
  | case1 => simp [splitSep]
  | case2 c => simp [splitSep]
  | case3 c1 c2 rest h ih =>
    obtain ⟨rfl, rfl⟩ := h
    simp [splitSep]
  | case4 c1 c2 rest h heq ih =>
    exact absurd heq ih
  | case5 c1 c2 rest h t ts heq ih =>
    simp [splitSep, h, heq]

theorem splitSep_no_colon {l : List Char} (h : ':' ∉ l) : splitSep l = [l] := by
  induction l using splitSep.induct with
  | case1 => rfl
  | case2 c => rfl
  | case3 c1 c2 rest hc ih =>
    exact absurd (hc.1 ▸ List.mem_cons_self c1 _) h
  | case4 c1 c2 rest hc heq ih =>
    exact absurd heq (splitSep_ne_nil _)
  | case5 c1 c2 rest hc t ts heq ih =>
    have h2 : ':' ∉ c2 :: rest := fun hm => h (List.mem_cons_of_mem c1 hm)
    have hrec := ih h2
    simp [splitSep, hc, hrec]

theorem splitSep_sep {t : List Char} (ht : ':' ∉ t) (e : List Char) :
    splitSep (t ++ ':' :: ':' :: e) = t :: splitSep e := by
  induction t with
  | nil => simp [splitSep]
  | cons c cs ih =>
    have hc : c ≠ ':' := fun h => ht (h ▸ List.mem_cons_self c cs)
    have hcs : ':' ∉ cs := fun h => ht (List.mem_cons_of_mem c h)
    have ihe := ih hcs
    cases cs with
    | nil =>
      have hsp : splitSep (':' :: ':' :: e) = [] :: splitSep e := by
        simp [splitSep]
      simp [splitSep, hc, hsp]
    | cons d ds =>
      have hcd : ¬(c = ':' ∧ d = ':') := fun hh => hc hh.1
      simp only [List.cons_append] at ihe ⊢
      simp [splitSep, hcd, ihe]

theorem displayPair_entityKeyStr {t e : Str} (ht : ':' ∉ t) (he : ':' ∉ e) :
    displayPair (entityKeyStr t e) = (t, e) := by
  have harr : entityKeyStr t e = t ++ ':' :: ':' :: e := by
    simp [entityKeyStr]
  rw [displayPair, harr, splitSep_sep ht, splitSep_no_colon he]

theorem entityKeyStr_inj {t1 e1 t2 e2 : Str} (ht1 : ':' ∉ t1) (he1 : ':' ∉ e1)
    (ht2 : ':' ∉ t2) (he2 : ':' ∉ e2)
    (h : entityKeyStr t1 e1 = entityKeyStr t2 e2) : t1 = t2 ∧ e1 = e2 := by
  have hp := displayPair_entityKeyStr ht1 he1
  rw [h, displayPair_entityKeyStr ht2 he2] at hp
  exact ⟨congrArg Prod.fst hp |>.symm, congrArg Prod.snd hp |>.symm⟩

/-! Lemmas about the keyed accumulator. -/

/-- The accumulation step, named for reuse in proofs. -/
def accumStep (key : ρ → Option Str) (clk imp : ρ → Int)
    (m : List (Str × Totals)) (r : ρ) : List (Str × Totals) :=
  match key r with
  | some k => bump m k (clk r) (imp r)
  | none => m

theorem accumTotals_eq_foldl (key : ρ → Option Str) (clk imp : ρ → Int)
    (rows : List ρ) :
    accumTotals key clk imp rows = rows.foldl (accumStep key clk imp) [] := rfl

/-- Adding one observation to an optional accumulator slot. -/
def addTo (o : Option Totals) (c i : Int) : Totals :=
  match o with
  | some t => ⟨t.clicks + c, t.impressions + i, t.count + 1⟩
  | none => ⟨c, i, 1⟩

theorem lookupTotals_nil (k : Str) : lookupTotals [] k = none := rfl

theorem lookupTotals_bump_self (m : List (Str × Totals)) (k : Str) (c i : Int) :
    lookupTotals (bump m k c i) k = some (addTo (lookupTotals m k) c i) := by
  induction m with
  | nil => simp [bump, lookupTotals, addTo, List.find?]
  | cons p rest ih =>
    obtain ⟨k', t⟩ := p
    by_cases h : k' = k
    · subst h
      simp [bump, lookupTotals, addTo, List.find?]
    · simp only [bump, if_neg h]
      have hfind : ∀ tl : List (Str × Totals),
          lookupTotals ((k', t) :: tl) k = lookupTotals tl k := by
        intro tl
        simp [lookupTotals, List.find?, h]
      rw [hfind, hfind, ih]

theorem lookupTotals_bump_other (m : List (Str × Totals)) {k k' : Str}
    (hne : k' ≠ k) (c i : Int) :
    lookupTotals (bump m k c i) k' = lookupTotals m k' := by
  have hne' : k ≠ k' := fun h => hne h.symm
  induction m with
  | nil => simp [bump, lookupTotals, List.find?, hne']
  | cons p rest ih =>
    obtain ⟨k0, t⟩ := p
    by_cases h : k0 = k
    · subst h
      simp [bump, lookupTotals, List.find?, hne']
    · simp only [bump, if_neg h]
      by_cases h0 : k0 = k'
      · subst h0
        simp [lookupTotals, List.find?]
      · have hfind : ∀ tl : List (Str × Totals),
            lookupTotals ((k0, t) :: tl) k' = lookupTotals tl k' := by
          intro tl
          simp [lookupTotals, List.find?, h0]
        rw [hfind, hfind, ih]

/-- The rows of this batch that fall into group `k`. -/
def groupRows (key : ρ → Option Str) (k : Str) (rows : List ρ) : List ρ :=
  rows.filter (fun r => key r = some k)

/-- Folding a batch of (clicks, impressions) observations into an optional
accumulator slot. -/
def foldStats (o : Option Totals) : List (Int × Int) → Option Totals
  | [] => o
  | ci :: l => foldStats (some (addTo o ci.1 ci.2)) l

theorem foldStats_some (t : Totals) (l : List (Int × Int)) :
    foldStats (some t) l =
      some ⟨t.clicks + (l.map Prod.fst).sum,
        t.impressions + (l.map Prod.snd).sum, t.count + l.length⟩ := by
  induction l generalizing t with
  | nil => simp [foldStats]
  | cons ci l ih =>
    rw [foldStats, ih]
    simp only [addTo, List.map_cons, List.sum_cons, List.length_cons,
      Option.some.injEq, Totals.mk.injEq]
    refine ⟨add_assoc _ _ _, add_assoc _ _ _, ?_⟩
    rw [Nat.add_assoc, Nat.add_comm 1]

theorem foldStats_none (l : List (Int × Int)) :
    foldStats none l =
      if l = [] then none
      else some ⟨(l.map Prod.fst).sum, (l.map Prod.snd).sum, l.length⟩ := by
  cases l with
  | nil => rfl
  | cons ci l =>
    rw [foldStats, foldStats_some]
    simp only [addTo, List.map_cons, List.sum_cons, List.length_cons,
      List.cons_ne_nil, if_neg, if_false]
    simp only [Option.some.injEq, Totals.mk.injEq]
    exact ⟨trivial, trivial, Nat.add_comm 1 _⟩

theorem lookupTotals_foldl (key : ρ → Option Str) (clk imp : ρ → Int)
    (rows : List ρ) (m : List (Str × Totals)) (k : Str) :
    lookupTotals (rows.foldl (accumStep key clk imp) m) k =
      foldStats (lookupTotals m k)
        ((groupRows key k rows).map (fun r => (clk r, imp r))) := by
  induction rows generalizing m with
  | nil => simp [groupRows, foldStats]
  | cons r rest ih =>
    simp only [List.foldl_cons]
    cases hk : key r with
    | none =>
      have hstep : accumStep key clk imp m r = m := by
        simp [accumStep, hk]
      rw [hstep, ih]
      have : groupRows key k (r :: rest) = groupRows key k rest := by
        simp [groupRows, List.filter_cons, hk]
      rw [this]
    | some k0 =>
      have hstep : accumStep key clk imp m r = bump m k0 (clk r) (imp r) := by
        simp [accumStep, hk]
      rw [hstep, ih]
      by_cases hkk : k0 = k
      · subst hkk
        rw [lookupTotals_bump_self]
        have : groupRows key k0 (r :: rest) = r :: groupRows key k0 rest := by
          simp [groupRows, List.filter_cons, hk]
        rw [this, List.map_cons, foldStats]
      · rw [lookupTotals_bump_other m (fun h => hkk h.symm)]
        have : groupRows key k (r :: rest) = groupRows key k rest := by
          simp [groupRows, List.filter_cons, hk, hkk]
        rw [this]

theorem lookupTotals_accum_of_nil {key : ρ → Option Str} {clk imp : ρ → Int}
    {rows : List ρ} {k : Str} (h : groupRows key k rows = []) :
    lookupTotals (accumTotals key clk imp rows) k = none := by
  rw [accumTotals_eq_foldl, lookupTotals_foldl, lookupTotals_nil, h]
  rfl

theorem lookupTotals_accum_of_ne_nil {key : ρ → Option Str} {clk imp : ρ → Int}
    {rows : List ρ} {k : Str} (h : groupRows key k rows ≠ []) :
    lookupTotals (accumTotals key clk imp rows) k =
      some ⟨((groupRows key k rows).map clk).sum,
        ((groupRows key k rows).map imp).sum, (groupRows key k rows).length⟩ := by
  rw [accumTotals_eq_foldl, lookupTotals_foldl, lookupTotals_nil, foldStats_none]
  have hm : (groupRows key k rows).map (fun r => (clk r, imp r)) ≠ [] := by
    simpa using h
  rw [if_neg hm]
  simp [List.map_map, Function.comp_def]

/-- The key list (JS `Object.keys`) of an accumulator, in insertion order. -/
def keysOf (m : List (Str × Totals)) : List Str := m.map Prod.fst

theorem lookupTotals_eq_none_iff {m : List (Str × Totals)} {k : Str} :
    lookupTotals m k = none ↔ k ∉ keysOf m := by
  simp only [lookupTotals, Option.map_eq_none', List.find?_eq_none, keysOf,
    List.mem_map, decide_eq_true_eq]
  constructor
  · rintro h ⟨p, hp, rfl⟩
    exact h p hp rfl
  · rintro h p hp rfl
    exact h ⟨p, hp, rfl⟩

theorem keysOf_bump (m : List (Str × Totals)) (k : Str) (c i : Int) :
    keysOf (bump m k c i) =
      if k ∈ keysOf m then keysOf m else keysOf m ++ [k] := by
  induction m with
  | nil => simp [bump, keysOf]
  | cons p rest ih =>
    obtain ⟨k0, t⟩ := p
    by_cases h : k0 = k
    · subst h
      simp [bump, keysOf]
    · have hne : ¬k = k0 := fun hh => h hh.symm
      simp only [bump, if_neg h, keysOf, List.map_cons] at ih ⊢
      rw [ih]
      by_cases hm : k ∈ List.map Prod.fst rest
      · simp [hm, hne]
      · simp [hm, hne]

theorem keysOf_foldl_nodup (key : ρ → Option Str) (clk imp : ρ → Int)
    (rows : List ρ) (m : List (Str × Totals)) (hm : (keysOf m).Nodup) :
    (keysOf (rows.foldl (accumStep key clk imp) m)).Nodup := by
  induction rows generalizing m with
  | nil => exact hm
  | cons r rest ih =>
    rw [List.foldl_cons]
    apply ih
    cases hk : key r with
    | none => simpa [accumStep, hk] using hm
    | some k0 =>
      rw [show accumStep key clk imp m r = bump m k0 (clk r) (imp r) by
        simp [accumStep, hk]]
      rw [keysOf_bump]
      by_cases hmem : k0 ∈ keysOf m
      · simpa [hmem] using hm
      · simp only [hmem, if_false]
        simp [List.nodup_append, hm, hmem]

theorem keysOf_accum_nodup (key : ρ → Option Str) (clk imp : ρ → Int)
    (rows : List ρ) : (keysOf (accumTotals key clk imp rows)).Nodup := by
  rw [accumTotals_eq_foldl]
  exact keysOf_foldl_nodup key clk imp rows [] (by simp [keysOf])

theorem mem_keysOf_accum {key : ρ → Option Str} {clk imp : ρ → Int}
    {rows : List ρ} {k : Str} :
    k ∈ keysOf (accumTotals key clk imp rows) ↔ ∃ r ∈ rows, key r = some k := by
  constructor
  · intro hk
    by_contra hgroup
    have hnil : groupRows key k rows = [] := by
      simp only [groupRows, List.filter_eq_nil_iff, decide_eq_true_eq]
      intro r hr
      exact fun he => hgroup ⟨r, hr, he⟩
    exact (lookupTotals_eq_none_iff.mp (lookupTotals_accum_of_nil hnil)) hk
  · rintro ⟨r, hr, hkey⟩
    by_contra hk
    have := lookupTotals_eq_none_iff.mpr hk
    have hnil : groupRows key k rows ≠ [] := by
      simp only [groupRows, ne_eq, List.filter_eq_nil_iff, decide_eq_true_eq,
        not_forall]
      exact ⟨r, hr, by simp [hkey]⟩
    rw [lookupTotals_accum_of_ne_nil hnil] at this
    exact Option.some_ne_none _ this

theorem mem_of_nodup_iff_lookup {m : List (Str × Totals)}
    (h : (keysOf m).Nodup) (k : Str) (t : Totals) :
    (k, t) ∈ m ↔ lookupTotals m k = some t := by
  induction m with
  | nil => simp [lookupTotals, List.find?]
  | cons p rest ih =>
    obtain ⟨k0, t0⟩ := p
    have hcons : (k0 :: keysOf rest).Nodup := h
    have hk0 : k0 ∉ keysOf rest := (List.nodup_cons.mp hcons).1
    have hrest : (keysOf rest).Nodup := (List.nodup_cons.mp hcons).2
    by_cases hk : k0 = k
    · subst hk
      have hnot : (k0, t) ∉ rest := fun hmem =>
        hk0 (List.mem_map.mpr ⟨(k0, t), hmem, rfl⟩)
      have hlook : lookupTotals ((k0, t0) :: rest) k0 = some t0 := by
        simp [lookupTotals, List.find?]
      rw [hlook]
      simp only [List.mem_cons, Prod.mk.injEq, true_and, Option.some.injEq]
      constructor
      · rintro (rfl | hmem)
        · rfl
        · exact absurd hmem hnot
      · rintro rfl
        exact Or.inl rfl
    · have hne : ¬k = k0 := fun hh => hk hh.symm
      have hskip : lookupTotals ((k0, t0) :: rest) k = lookupTotals rest k := by
        simp [lookupTotals, List.find?, hk]
      rw [hskip, ← ih hrest]
      simp only [List.mem_cons, Prod.mk.injEq]
      constructor
      · rintro (⟨rfl, rfl⟩ | hmem)
        · exact absurd rfl hne
        · exact hmem
      · intro hmem
        exact Or.inr hmem

/-! Sum lemmas for the conservation claims. -/

/-- Total article count across all groups of an accumulator. -/
def sumCounts (m : List (Str × Totals)) : Nat :=
  (m.map (fun p => p.2.count)).sum

/-- Total clicks across all groups of an accumulator. -/
def sumClicks (m : List (Str × Totals)) : Int :=
  (m.map (fun p => p.2.clicks)).sum

/-- Total impressions across all groups of an accumulator. -/
def sumImps (m : List (Str × Totals)) : Int :=
  (m.map (fun p => p.2.impressions)).sum

theorem sumCounts_bump (m : List (Str × Totals)) (k : Str) (c i : Int) :
    sumCounts (bump m k c i) = sumCounts m + 1 := by
  induction m with
  | nil => simp [bump, sumCounts]
  | cons p rest ih =>
    obtain ⟨k0, t⟩ := p
    by_cases h : k0 = k
    · subst h
      simp [bump, sumCounts]
      ring
    · simp [bump, sumCounts, h] at ih ⊢
      rw [ih]
      ring

theorem sumClicks_bump (m : List (Str × Totals)) (k : Str) (c i : Int) :
    sumClicks (bump m k c i) = sumClicks m + c := by
  induction m with
  | nil => simp [bump, sumClicks]
  | cons p rest ih =>
    obtain ⟨k0, t⟩ := p
    by_cases h : k0 = k
    · subst h
      simp [bump, sumClicks]
      ring
    · simp [bump, sumClicks, h] at ih ⊢
      rw [ih]
      ring

theorem sumImps_bump (m : List (Str × Totals)) (k : Str) (c i : Int) :
    sumImps (bump m k c i) = sumImps m + i := by
  induction m with
  | nil => simp [bump, sumImps]
  | cons p rest ih =>
    obtain ⟨k0, t⟩ := p
    by_cases h : k0 = k
    · subst h
      simp [bump, sumImps]
      ring
    · simp [bump, sumImps, h] at ih ⊢
      rw [ih]
      ring

theorem sumCounts_foldl (key : ρ → Option Str) (clk imp : ρ → Int)
    (rows : List ρ) (m : List (Str × Totals)) :
    sumCounts (rows.foldl (accumStep key clk imp) m) =
      sumCounts m + (rows.filter (fun r => (key r).isSome)).length := by
  induction rows generalizing m with
  | nil => simp
  | cons r rest ih =>
    rw [List.foldl_cons, ih]
    cases hk : key r with
    | none => simp [accumStep, hk, List.filter_cons]
    | some k0 =>
      rw [show accumStep key clk imp m r = bump m k0 (clk r) (imp r) by
        simp [accumStep, hk]]
      rw [sumCounts_bump]
      simp [List.filter_cons, hk]
      ring

theorem sumClicks_foldl (key : ρ → Option Str) (clk imp : ρ → Int)
    (rows : List ρ) (m : List (Str × Totals)) :
    sumClicks (rows.foldl (accumStep key clk imp) m) =
      sumClicks m + ((rows.filter (fun r => (key r).isSome)).map clk).sum := by
  induction rows generalizing m with
  | nil => simp
  | cons r rest ih =>
    rw [List.foldl_cons, ih]
    cases hk : key r with
    | none => simp [accumStep, hk, List.filter_cons]
    | some k0 =>
      rw [show accumStep key clk imp m r = bump m k0 (clk r) (imp r) by
        simp [accumStep, hk]]
      rw [sumClicks_bump]
      simp [List.filter_cons, hk]
      ring

theorem sumImps_foldl (key : ρ → Option Str) (clk imp : ρ → Int)
    (rows : List ρ) (m : List (Str × Totals)) :
    sumImps (rows.foldl (accumStep key clk imp) m) =
      sumImps m + ((rows.filter (fun r => (key r).isSome)).map imp).sum := by
  induction rows generalizing m with
  | nil => simp
  | cons r rest ih =>
    rw [List.foldl_cons, ih]
    cases hk : key r with
    | none => simp [accumStep, hk, List.filter_cons]
    | some k0 =>
      rw [show accumStep key clk imp m r = bump m k0 (clk r) (imp r) by
        simp [accumStep, hk]]
      rw [sumImps_bump]
      simp [List.filter_cons, hk]
      ring

/-! Bridge from the fixed-point representation to rationals rounded to two
decimal places. -/

/-- Rounding a rational to two decimal places, half up: the value of JS
`parseFloat(q.toFixed(2))` (ignoring binary floating-point representation
error, which is outside this model). -/
def round2Q (q : ℚ) : ℚ := ((⌊q * 100 + 1 / 2⌋ : ℤ) : ℚ) / 100

theorem floor_intCast_div_pos (n d : ℤ) (hd : 0 < d) :
    ⌊(n : ℚ) / (d : ℚ)⌋ = n / d := by
  lift d to ℕ using hd.le with d0
  exact_mod_cast Rat.floor_intCast_div_natCast n d0

theorem round2x100_eq_floor (n d : ℤ) (hd : 0 < d) :
    round2x100 n d = ⌊((n : ℚ) / (d : ℚ)) * 100 + 1 / 2⌋ := by
  have hd0 : (d : ℚ) ≠ 0 := by
    exact_mod_cast hd.ne'
  have harg : ((n : ℚ) / (d : ℚ)) * 100 + 1 / 2 =
      (((200 * n + d : ℤ) : ℚ)) / (((2 * d : ℤ) : ℚ)) := by
    push_cast
    field_simp
    ring
  rw [round2x100, harg, floor_intCast_div_pos _ _ (by omega)]

theorem round2x100_spec (n d : ℤ) (hd : 0 < d) :
    ((round2x100 n d : ℤ) : ℚ) / 100 = round2Q ((n : ℚ) / (d : ℚ)) := by
  rw [round2Q, round2x100_eq_floor n d hd]

/-! Sum instances for the accumulators. -/

theorem sumCounts_accumTotals (key : ρ → Option Str) (clk imp : ρ → Int)
    (rows : List ρ) :
    sumCounts (accumTotals key clk imp rows) =
      (rows.filter (fun r => (key r).isSome)).length := by
  rw [accumTotals_eq_foldl, sumCounts_foldl]
  simp [sumCounts]

theorem sumClicks_accumTotals (key : ρ → Option Str) (clk imp : ρ → Int)
    (rows : List ρ) :
    sumClicks (accumTotals key clk imp rows) =
      ((rows.filter (fun r => (key r).isSome)).map clk).sum := by
  rw [accumTotals_eq_foldl, sumClicks_foldl]
  simp [sumClicks]

theorem sumImps_accumTotals (key : ρ → Option Str) (clk imp : ρ → Int)
    (rows : List ρ) :
    sumImps (accumTotals key clk imp rows) =
      ((rows.filter (fun r => (key r).isSome)).map imp).sum := by
  rw [accumTotals_eq_foldl, sumImps_foldl]
  simp [sumImps]

/-! Field-preservation lemmas for the Row Merger. -/

theorem mergedData_length (items : List CategorizedItem) (rows : List CsvRow) :
    (mergedData items rows).length = rows.length := by
  simp [mergedData]

theorem mergedData_map_clicks (items : List CategorizedItem)
    (rows : List CsvRow) :
    (mergedData items rows).map (fun r => r.Clicks) =
      rows.map (fun r => r.Clicks) := by
  unfold mergedData
  rw [List.map_map]
  apply List.map_congr_left
  intro r _
  rcases hc : categorizedMapGet items r.URL with _ | ⟨t, e, s⟩ <;>
    simp [Function.comp, mergeRow, hc]

theorem mergedData_map_impressions (items : List CategorizedItem)
    (rows : List CsvRow) :
    (mergedData items rows).map (fun r => r.Impressions) =
      rows.map (fun r => r.Impressions) := by
  unfold mergedData
  rw [List.map_map]
  apply List.map_congr_left
  intro r _
  rcases hc : categorizedMapGet items r.URL with _ | ⟨t, e, s⟩ <;>
    simp [Function.comp, mergeRow, hc]

/-- Claim C3 proof core, stated on an arbitrary merged row batch. -/
theorem categorySummaries_sums (mrows : List MergedRow) :
    ((categorySummaries mrows).map (fun s => s.articleCount)).sum = mrows.length
    ∧ ((categorySummaries mrows).map (fun s => s.totalClicks)).sum =
        (mrows.map (fun r => r.Clicks)).sum
    ∧ ((categorySummaries mrows).map (fun s => s.totalImpressions)).sum =
        (mrows.map (fun r => r.Impressions)).sum := by
  have hperm := sortDescBy_perm
    (fun s : CategorySummary => s.totalClicks)
    ((allThemeSummaries mrows).map (fun s =>
      { toCategorySummaryBase := s,
        performanceTier :=
          if s.ContentTheme ∈ themeTopPerformersSet mrows then Tier.top
          else if s.ContentTheme ∈ themePotentialPerformersSet mrows then
            Tier.potential
          else Tier.standard }))
  have hfilter :
      (mrows.filter (fun r => (themeKey r).isSome)) = mrows := by
    simp [themeKey]
  refine ⟨?_, ?_, ?_⟩
  · have := (hperm.map (fun s : CategorySummary => s.articleCount)).sum_eq
    rw [categorySummaries, this, List.map_map]
    have : ((allThemeSummaries mrows).map
        (fun s => s.articleCount)).sum = sumCounts (themeTotals mrows) := by
      simp [allThemeSummaries, sumCounts, List.map_map, Function.comp_def]
    simp only [Function.comp_def]
    rw [this, themeTotals, sumCounts_accumTotals, hfilter]
  · have := (hperm.map (fun s : CategorySummary => s.totalClicks)).sum_eq
    rw [categorySummaries, this, List.map_map]
    have : ((allThemeSummaries mrows).map
        (fun s => s.totalClicks)).sum = sumClicks (themeTotals mrows) := by
      simp [allThemeSummaries, sumClicks, List.map_map, Function.comp_def]
    simp only [Function.comp_def]
    rw [this, themeTotals, sumClicks_accumTotals, hfilter]
  · have := (hperm.map (fun s : CategorySummary => s.totalImpressions)).sum_eq
    rw [categorySummaries, this, List.map_map]
    have : ((allThemeSummaries mrows).map
        (fun s => s.totalImpressions)).sum = sumImps (themeTotals mrows) := by
      simp [allThemeSummaries, sumImps, List.map_map, Function.comp_def]
    simp only [Function.comp_def]
    rw [this, themeTotals, sumImps_accumTotals, hfilter]

/-- Claim C3: conservation of article counts, clicks and impressions across
the theme-level aggregates, for every input. -/
theorem C3_theme_conservation (items : List CategorizedItem)
    (rows : List CsvRow) :
    ((categorySummariesOf items rows).map (fun s => s.articleCount)).sum =
        rows.length
    ∧ ((categorySummariesOf items rows).map (fun s => s.totalClicks)).sum =
        (rows.map (fun r => r.Clicks)).sum
    ∧ ((categorySummariesOf items rows).map
        (fun s => s.totalImpressions)).sum =
        (rows.map (fun r => r.Impressions)).sum := by
  obtain ⟨h1, h2, h3⟩ := categorySummaries_sums (mergedData items rows)
  refine ⟨?_, ?_, ?_⟩
  · rw [categorySummariesOf, h1, mergedData_length]
  · rw [categorySummariesOf, h2, mergedData_map_clicks]
  · rw [categorySummariesOf, h3, mergedData_map_impressions]

/-! Claim C6: the Row Merger contract. -/

theorem mergeRow_base_fields (items : List CategorizedItem) (row : CsvRow) :
    (mergeRow items row).URL = row.URL
    ∧ (mergeRow items row).Clicks = row.Clicks
    ∧ (mergeRow items row).Impressions = row.Impressions
    ∧ (mergeRow items row).Title = row.Title
    ∧ (mergeRow items row).AuthorName = row.AuthorName := by
  rcases hc : categorizedMapGet items row.URL with _ | ⟨t, e, s⟩ <;>
    simp [mergeRow, hc]

/-- Claim C6: the merged output has exactly one row per input row, in input
order, base fields preserved; a row with no classification entry gets the
`Uncategorized`/`Uncategorized`/`N/A` placeholders, a classified row gets
exactly its classification; and every output row corresponds to an input row
(so orphan classification entries synthesize no output row). -/
theorem C6_row_merger (items : List CategorizedItem) (rows : List CsvRow) :
    (mergedData items rows).length = rows.length
    ∧ (∀ i (hm : i < (mergedData items rows).length) (hr : i < rows.length),
        ((mergedData items rows).get ⟨i, hm⟩).URL = (rows.get ⟨i, hr⟩).URL
        ∧ ((mergedData items rows).get ⟨i, hm⟩).Clicks =
            (rows.get ⟨i, hr⟩).Clicks
        ∧ ((mergedData items rows).get ⟨i, hm⟩).Impressions =
            (rows.get ⟨i, hr⟩).Impressions
        ∧ (categorizedMapGet items (rows.get ⟨i, hr⟩).URL = none →
            ((mergedData items rows).get ⟨i, hm⟩).ContentTheme =
                uncategorizedLabel
            ∧ ((mergedData items rows).get ⟨i, hm⟩).Entity = uncategorizedLabel
            ∧ ((mergedData items rows).get ⟨i, hm⟩).SubEntity = naLabel)
        ∧ (∀ t e s,
            categorizedMapGet items (rows.get ⟨i, hr⟩).URL = some (t, e, s) →
            ((mergedData items rows).get ⟨i, hm⟩).ContentTheme = t
            ∧ ((mergedData items rows).get ⟨i, hm⟩).Entity = e
            ∧ ((mergedData items rows).get ⟨i, hm⟩).SubEntity = s))
    ∧ (∀ m ∈ mergedData items rows, ∃ r ∈ rows, m.URL = r.URL) := by
  refine ⟨mergedData_length items rows, ?_, ?_⟩
  · intro i hm hr
    have hget : (mergedData items rows).get ⟨i, hm⟩ =
        mergeRow items (rows.get ⟨i, hr⟩) := by
      simp [mergedData, List.get_eq_getElem, List.getElem_map]
    rw [hget]
    generalize rows.get ⟨i, hr⟩ = row0
    rcases hc : categorizedMapGet items row0.URL with _ | ⟨t, e, s⟩
    · simp [mergeRow, hc]
    · simp only [mergeRow, hc]
      refine ⟨by simp, by simp, by simp, by simp, ?_⟩
      intro t0 e0 s0 hsome
      obtain ⟨rfl, rfl, rfl⟩ : t = t0 ∧ e = e0 ∧ s = s0 := by
        simpa using hsome
      exact ⟨rfl, rfl, rfl⟩
  · intro m hmem
    obtain ⟨r, hr, rfl⟩ := List.mem_map.mp hmem
    exact ⟨r, hr, (mergeRow_base_fields items r).1⟩

/-! Claim C7: division guards. -/

theorem avg100_spec (c : Int) (n : Nat) :
    ((avg100 c n : ℤ) : ℚ) / 100 =
      if 0 < n then round2Q ((c : ℚ) / (n : ℚ)) else 0 := by
  by_cases h : 0 < n
  · simp only [avg100, h, if_true]
    have hcast := round2x100_spec c (n : ℤ) (by exact_mod_cast h)
    rw [hcast]
    norm_num
  · simp [avg100, h]

/-- Total clicks of the theme group of `t` in a merged batch. -/
def themeClicksOf (mrows : List MergedRow) (t : Str) : Int :=
  ((mrows.filter (fun r => r.ContentTheme = t)).map (fun r => r.Clicks)).sum

/-- Total impressions of the theme group of `t` in a merged batch. -/
def themeImpsOf (mrows : List MergedRow) (t : Str) : Int :=
  ((mrows.filter (fun r => r.ContentTheme = t)).map
    (fun r => r.Impressions)).sum

theorem groupRows_themeKey (mrows : List MergedRow) (k : Str) :
    groupRows themeKey k mrows = mrows.filter (fun r => r.ContentTheme = k) := by
  simp [groupRows, themeKey]

theorem lookup_themeTotals_of_mem {mrows : List MergedRow} {r : MergedRow}
    (hr : r ∈ mrows) :
    lookupTotals (themeTotals mrows) r.ContentTheme =
      some ⟨themeClicksOf mrows r.ContentTheme,
        themeImpsOf mrows r.ContentTheme,
        (mrows.filter (fun x => x.ContentTheme = r.ContentTheme)).length⟩ := by
  have hne : groupRows themeKey r.ContentTheme mrows ≠ [] := by
    rw [groupRows_themeKey]
    exact List.ne_nil_of_mem (List.mem_filter.mpr ⟨hr, by simp⟩)
  rw [themeTotals, lookupTotals_accum_of_ne_nil hne]
  rw [groupRows_themeKey, themeClicksOf, themeImpsOf]

theorem mem_categorySummaries_avg (mrows : List MergedRow) :
    ∀ s ∈ categorySummaries mrows,
      s.averageClicks100 = avg100 s.totalClicks s.articleCount := by
  intro s hs
  rw [categorySummaries] at hs
  have hs' := (sortDescBy_perm _ _).mem_iff.mp hs
  obtain ⟨b, hb, rfl⟩ := List.mem_map.mp hs'
  obtain ⟨p, hp, rfl⟩ := List.mem_map.mp hb
  rfl

/-- Claim C7: every ratio is guarded against a zero denominator — the rounded
average is `totalClicks/articleCount` when the count is positive and `0`
otherwise, and each row's contribution percentages are
`round((value/themeTotal)*100, 2)` when the row's theme-group total is
positive and `0` otherwise. -/
theorem C7_zero_denominator_guard (items : List CategorizedItem)
    (rows : List CsvRow) :
    (∀ s ∈ categorySummariesOf items rows,
      ((s.averageClicks100 : ℤ) : ℚ) / 100 =
        if 0 < s.articleCount then
          round2Q ((s.totalClicks : ℚ) / (s.articleCount : ℚ))
        else 0)
    ∧ (∀ u ∈ categorizedUrlsOf items rows,
      (((u.Clicks_Contribution_Percentage100 : ℤ) : ℚ) / 100 =
        if 0 < themeClicksOf (mergedData items rows) u.ContentTheme then
          round2Q (((u.Clicks : ℚ) /
            ((themeClicksOf (mergedData items rows) u.ContentTheme : ℤ) : ℚ))
            * 100)
        else 0)
      ∧ (((u.Impressions_Contribution_Percentage100 : ℤ) : ℚ) / 100 =
        if 0 < themeImpsOf (mergedData items rows) u.ContentTheme then
          round2Q (((u.Impressions : ℚ) /
            ((themeImpsOf (mergedData items rows) u.ContentTheme : ℤ) : ℚ))
            * 100)
        else 0)) := by
  constructor
  · intro s hs
    rw [mem_categorySummaries_avg (mergedData items rows) s hs, avg100_spec]
  · intro u hu
    rw [categorizedUrlsOf, categorizedUrls] at hu
    obtain ⟨r, hr, rfl⟩ := List.mem_map.mp hu
    have hlook := lookup_themeTotals_of_mem hr
    constructor
    · show (((if 0 < ((lookupTotals (themeTotals (mergedData items rows))
          r.ContentTheme).map (fun t => t.clicks)).getD 0 then
            round2x100 (r.Clicks * 100)
              (((lookupTotals (themeTotals (mergedData items rows))
                r.ContentTheme).map (fun t => t.clicks)).getD 0)
          else 0 : ℤ) : ℚ)) / 100 = _
      rw [hlook]
      simp only [Option.map_some', Option.getD_some]
      by_cases hT : 0 < themeClicksOf (mergedData items rows) r.ContentTheme
      · simp only [hT, if_true]
        rw [round2x100_spec _ _ hT]
        congr 1
        push_cast
        ring
      · simp [hT]
    · show (((if 0 < ((lookupTotals (themeTotals (mergedData items rows))
          r.ContentTheme).map (fun t => t.impressions)).getD 0 then
            round2x100 (r.Impressions * 100)
              (((lookupTotals (themeTotals (mergedData items rows))
                r.ContentTheme).map (fun t => t.impressions)).getD 0)
          else 0 : ℤ) : ℚ)) / 100 = _
      rw [hlook]
      simp only [Option.map_some', Option.getD_some]
      by_cases hT : 0 < themeImpsOf (mergedData items rows) r.ContentTheme
      · simp only [hT, if_true]
        rw [round2x100_spec _ _ hT]
        congr 1
        push_cast
        ring
      · simp [hT]

/-! Claim C10: every summary list is emitted sorted by descending
`totalClicks`. -/

/-- Claim C10: all six summary outputs are sorted in non-increasing order of
`totalClicks`, for every input. -/
theorem C10_outputs_sorted_by_totalClicks (items : List CategorizedItem)
    (rows : List CsvRow) :
    (categorySummariesOf items rows).Pairwise
        (fun a b => b.totalClicks ≤ a.totalClicks)
    ∧ (subcategorySummariesOf items rows).Pairwise
        (fun a b => b.totalClicks ≤ a.totalClicks)
    ∧ (entitySummariesOf items rows).Pairwise
        (fun a b => b.totalClicks ≤ a.totalClicks)
    ∧ (authorSummariesOf items rows).Pairwise
        (fun a b => b.totalClicks ≤ a.totalClicks)
    ∧ (discoverCategorySummariesOf items rows).Pairwise
        (fun a b => b.totalClicks ≤ a.totalClicks)
    ∧ (discoverSubcategorySummariesOf items rows).Pairwise
        (fun a b => b.totalClicks ≤ a.totalClicks) := by
  refine ⟨?_, ?_, ?_, ?_, ?_, ?_⟩
  · exact sortDescBy_sorted _ _
  · exact sortDescBy_sorted _ _
  · exact sortDescBy_sorted _ _
  · rw [authorSummariesOf, authorSummaries]
    by_cases h : hasAuthorData (mergedData items rows)
    · simp only [h, if_true]
      exact sortDescBy_sorted _ _
    · simp [h]
  · exact sortDescBy_sorted _ _
  · exact sortDescBy_sorted _ _

/-! Claim C8: order-independence of the Grouping Aggregator. -/

theorem lookupTotals_accum_perm {key : ρ → Option Str} {clk imp : ρ → Int}
    {l l' : List ρ} (h : l.Perm l') (k : Str) :
    lookupTotals (accumTotals key clk imp l) k =
      lookupTotals (accumTotals key clk imp l') k := by
  have hg : (groupRows key k l).Perm (groupRows key k l') :=
    h.filter (fun r => key r = some k)
  by_cases hnil : groupRows key k l = []
  · have hnil' : groupRows key k l' = [] := by
      have hg' := hg.symm
      rw [hnil] at hg'
      exact hg'.eq_nil
    rw [lookupTotals_accum_of_nil hnil, lookupTotals_accum_of_nil hnil']
  · have hnil' : groupRows key k l' ≠ [] := by
      intro hcon
      have hg' := hg
      rw [hcon] at hg'
      exact hnil hg'.eq_nil
    rw [lookupTotals_accum_of_ne_nil hnil, lookupTotals_accum_of_ne_nil hnil']
    rw [(hg.map clk).sum_eq, (hg.map imp).sum_eq, hg.length_eq]

/-- Claim C8: the accumulated per-key totals of all four groupings are
order-independent — as mappings they are unchanged by any permutation of the
input rows — and their key sets are exactly the distinct keys observed. -/
theorem C8_grouping_order_independent (items : List CategorizedItem)
    (rows rows' : List CsvRow) (hperm : rows.Perm rows') :
    (∀ k, lookupTotals (themeTotals (mergedData items rows)) k =
        lookupTotals (themeTotals (mergedData items rows')) k)
    ∧ (∀ k, lookupTotals (entityTotals (mergedData items rows)) k =
        lookupTotals (entityTotals (mergedData items rows')) k)
    ∧ (∀ k, lookupTotals (globalEntityTotals (mergedData items rows)) k =
        lookupTotals (globalEntityTotals (mergedData items rows')) k)
    ∧ (∀ k, lookupTotals (authorTotals (mergedData items rows)) k =
        lookupTotals (authorTotals (mergedData items rows')) k)
    ∧ (∀ k, k ∈ keysOf (themeTotals (mergedData items rows)) ↔
        ∃ r ∈ mergedData items rows, themeKey r = some k)
    ∧ (∀ k, k ∈ keysOf (entityTotals (mergedData items rows)) ↔
        ∃ r ∈ mergedData items rows, entityKey r = some k)
    ∧ (∀ k, k ∈ keysOf (globalEntityTotals (mergedData items rows)) ↔
        ∃ r ∈ mergedData items rows, globalEntityKey r = some k)
    ∧ (∀ k, k ∈ keysOf (authorTotals (mergedData items rows)) ↔
        ∃ r ∈ mergedData items rows, authorKey r = some k) := by
  have hm : (mergedData items rows).Perm (mergedData items rows') :=
    hperm.map (mergeRow items)
  exact ⟨fun k => lookupTotals_accum_perm hm k,
    fun k => lookupTotals_accum_perm hm k,
    fun k => lookupTotals_accum_perm hm k,
    fun k => lookupTotals_accum_perm hm k,
    fun k => mem_keysOf_accum,
    fun k => mem_keysOf_accum,
    fun k => mem_keysOf_accum,
    fun k => mem_keysOf_accum⟩

/-! Claim C9: the Discover subset. -/

theorem mem_accumTotals_char {key : ρ → Option Str} {clk imp : ρ → Int}
    {rows : List ρ} {p : Str × Totals} (hp : p ∈ accumTotals key clk imp rows) :
    p.2.clicks = ((groupRows key p.1 rows).map clk).sum
    ∧ p.2.impressions = ((groupRows key p.1 rows).map imp).sum
    ∧ p.2.count = (groupRows key p.1 rows).length := by
  have hnodup := keysOf_accum_nodup key clk imp rows
  have hlook := (mem_of_nodup_iff_lookup hnodup p.1 p.2).mp hp
  by_cases hnil : groupRows key p.1 rows = []
  · rw [lookupTotals_accum_of_nil hnil] at hlook
    exact absurd hlook (by simp)
  · rw [lookupTotals_accum_of_ne_nil hnil] at hlook
    have h2 := Option.some.inj hlook
    refine ⟨?_, ?_, ?_⟩ <;> rw [← h2]

theorem mem_discoverCategorySummaries_base {curls : List CategorizedUrlData}
    {s : DiscoverCategorySummary} (hs : s ∈ discoverCategorySummaries curls) :
    s.toDiscoverCategorySummaryBase ∈ allDiscoverThemeSummaries curls := by
  rw [discoverCategorySummaries] at hs
  have hs' := (sortDescBy_perm _ _).mem_iff.mp hs
  obtain ⟨b, hb, rfl⟩ := List.mem_map.mp hs'
  rw [sortedDiscoverThemeSummaries] at hb
  exact (sortDescBy_perm _ _).mem_iff.mp hb

theorem groupRows_discover_theme (curls : List CategorizedUrlData) (k : Str) :
    groupRows (fun u : CategorizedUrlData => some u.ContentTheme) k
        (discoverTop100Urls curls) =
      (discoverTop100Urls curls).filter (fun u => u.ContentTheme = k) := by
  simp [groupRows]

/-- Claim C9: the Discover subset is the `min(100, n)`-element top slice by
clicks — every retained row has at least as many clicks as every excluded
row — and the Discover theme and theme+entity aggregates count and sum
exactly the rows of this subset. -/
theorem C9_discover_subset (items : List CategorizedItem) (rows : List CsvRow) :
    (discoverTop100UrlsOf items rows).length = min 100 rows.length
    ∧ (sortDescBy (fun u => u.Clicks) (categorizedUrlsOf items rows)).Perm
        (categorizedUrlsOf items rows)
    ∧ (∀ a ∈ discoverTop100UrlsOf items rows,
        ∀ b ∈ (sortDescBy (fun u => u.Clicks)
            (categorizedUrlsOf items rows)).drop 100,
        b.Clicks ≤ a.Clicks)
    ∧ (∀ s ∈ discoverCategorySummariesOf items rows,
        s.articleCount = ((discoverTop100UrlsOf items rows).filter
            (fun u => u.ContentTheme = s.ContentTheme)).length
        ∧ s.totalClicks = (((discoverTop100UrlsOf items rows).filter
            (fun u => u.ContentTheme = s.ContentTheme)).map
            (fun u => u.Clicks)).sum)
    ∧ (∀ p ∈ discoverEntityTotals (categorizedUrlsOf items rows),
        p.2.count = ((discoverTop100UrlsOf items rows).filter
            (fun u => entityKeyStr u.ContentTheme u.Entity = p.1)).length
        ∧ p.2.clicks = (((discoverTop100UrlsOf items rows).filter
            (fun u => entityKeyStr u.ContentTheme u.Entity = p.1)).map
            (fun u => u.Clicks)).sum) := by
  have hcurls_len : (categorizedUrlsOf items rows).length = rows.length := by
    rw [categorizedUrlsOf, categorizedUrls]
    simp [mergedData_length]
  refine ⟨?_, sortDescBy_perm _ _, ?_, ?_, ?_⟩
  · rw [discoverTop100UrlsOf, discoverTop100Urls, List.length_take,
      sortDescBy_length, hcurls_len]
  · intro a ha b hb
    have hsorted := sortDescBy_sorted (fun u : CategorizedUrlData => u.Clicks)
      (categorizedUrlsOf items rows)
    rw [← List.take_append_drop 100
      (sortDescBy (fun u => u.Clicks) (categorizedUrlsOf items rows))] at hsorted
    exact (List.pairwise_append.mp hsorted).2.2 a ha b hb
  · intro s hs
    have hbase := mem_discoverCategorySummaries_base hs
    rw [allDiscoverThemeSummaries] at hbase
    obtain ⟨p, hp, hpb⟩ := List.mem_map.mp hbase
    rw [discoverThemeTotals] at hp
    have hchar := mem_accumTotals_char hp
    rw [groupRows_discover_theme] at hchar
    have hk : s.ContentTheme = p.1 := by
      rw [← hpb]
    have hcount : s.articleCount = p.2.count := by
      rw [← hpb]
    have hclicks : s.totalClicks = p.2.clicks := by
      rw [← hpb]
    rw [discoverTop100UrlsOf]
    refine ⟨?_, ?_⟩
    · rw [hcount, hchar.2.2, hk]
    · rw [hclicks, hchar.1, hk]
  · intro p hp
    rw [discoverEntityTotals] at hp
    have hchar := mem_accumTotals_char hp
    have hgr : groupRows
        (fun u : CategorizedUrlData => some (entityKeyStr u.ContentTheme u.Entity))
        p.1 (discoverTop100Urls (categorizedUrlsOf items rows)) =
        (discoverTop100Urls (categorizedUrlsOf items rows)).filter
          (fun u => entityKeyStr u.ContentTheme u.Entity = p.1) := by
      simp [groupRows]
    rw [hgr] at hchar
    rw [discoverTop100UrlsOf]
    exact ⟨hchar.2.2, hchar.1⟩

/-! Tier machinery: counting and threshold lemmas. -/

theorem countP_le_of_key_mem {α β : Type _} {l : List α} {g : α → β}
    {p : α → Bool} {w : List β}
    (hnodup : l.Pairwise (fun a b => g a ≠ g b))
    (hmem : ∀ x ∈ l, p x = true → g x ∈ w) :
    l.countP p ≤ w.length := by
  rw [List.countP_eq_length_filter]
  have hpw : (l.filter p).Pairwise (fun a b => g a ≠ g b) :=
    List.Pairwise.sublist (List.filter_sublist l) hnodup
  have hnd : ((l.filter p).map g).Nodup := List.pairwise_map.mpr hpw
  have hsub : (l.filter p).map g ⊆ w := by
    intro y hy
    obtain ⟨x, hx, rfl⟩ := List.mem_map.mp hy
    exact hmem x (List.mem_of_mem_filter hx) (List.of_mem_filter hx)
  calc (l.filter p).length = ((l.filter p).map g).length :=
        (List.length_map _ _).symm
    _ ≤ w.length := (hnd.subperm hsub).length_le

theorem length_take_topN_map_le {α β : Type _} (l : List α) (f : α → β) :
    ((l.take TOP_N).map f).length ≤ TOP_N := by
  rw [List.length_map, List.length_take]
  exact min_le_left _ _

theorem eq_of_key_pairwise {α β : Type _} {l : List α} {g : α → β}
    (h : l.Pairwise (fun a b => g a ≠ g b)) {x y : α}
    (hx : x ∈ l) (hy : y ∈ l) (hxy : g x = g y) : x = y := by
  induction l with
  | nil => exact absurd hx (List.not_mem_nil x)
  | cons a l ih =>
    rcases List.pairwise_cons.mp h with ⟨ha, hl⟩
    rcases List.mem_cons.mp hx with rfl | hx0
    · rcases List.mem_cons.mp hy with rfl | hy0
      · rfl
      · exact absurd hxy (ha y hy0)
    · rcases List.mem_cons.mp hy with rfl | hy0
      · exact absurd hxy.symm (ha x hx0)
      · exact ih hl hx0 hy0

theorem mem_take_sort_filter_map {B β : Type _} {p : B → Bool} {f : B → Int}
    {g : B → β} {all : List B} {x : β}
    (hx : x ∈ ((sortDescBy f (all.filter p)).take TOP_N).map g) :
    ∃ b ∈ all, p b = true ∧ g b = x := by
  obtain ⟨b, hb, rfl⟩ := List.mem_map.mp hx
  have hb1 : b ∈ sortDescBy f (all.filter p) := List.take_subset _ _ hb
  have hb2 : b ∈ all.filter p := (sortDescBy_perm _ _).mem_iff.mp hb1
  exact ⟨b, List.mem_of_mem_filter hb2, List.of_mem_filter hb2, rfl⟩

theorem stdTier_eq_top_iff {B : Type _} (g : B → Str) (tops pots : List Str)
    (b : B) :
    ((if g b ∈ tops then Tier.top
      else if g b ∈ pots then Tier.potential else Tier.standard) = Tier.top)
      ↔ g b ∈ tops := by
  by_cases h1 : g b ∈ tops
  · simp [h1]
  · by_cases h2 : g b ∈ pots <;> simp [h1, h2]

theorem stdTier_eq_pot_iff {B : Type _} (g : B → Str) (tops pots : List Str)
    (b : B) :
    ((if g b ∈ tops then Tier.top
      else if g b ∈ pots then Tier.potential else Tier.standard) =
        Tier.potential)
      ↔ g b ∉ tops ∧ g b ∈ pots := by
  by_cases h1 : g b ∈ tops
  · simp [h1]
  · by_cases h2 : g b ∈ pots <;> simp [h1, h2]

/-! Key distinctness of the aggregate bases. -/

theorem accum_pairwise_keys (key : ρ → Option Str) (clk imp : ρ → Int)
    (rows : List ρ) :
    (accumTotals key clk imp rows).Pairwise (fun p q => p.1 ≠ q.1) := by
  have h := keysOf_accum_nodup key clk imp rows
  exact List.pairwise_map.mp h

theorem allThemeSummaries_pairwise (mrows : List MergedRow) :
    (allThemeSummaries mrows).Pairwise
      (fun a b => a.ContentTheme ≠ b.ContentTheme) := by
  rw [allThemeSummaries]
  exact List.pairwise_map.mpr
    (accum_pairwise_keys themeKey (fun r => r.Clicks) (fun r => r.Impressions)
      mrows)

theorem allGlobalEntitySummaries_pairwise (mrows : List MergedRow) :
    (allGlobalEntitySummaries mrows).Pairwise
      (fun a b => a.Entity ≠ b.Entity) := by
  rw [allGlobalEntitySummaries]
  exact List.pairwise_map.mpr
    (accum_pairwise_keys globalEntityKey (fun r => r.Clicks)
      (fun r => r.Impressions) mrows)

/-! Standard two-pool tiering: counts and thresholds at theme level and
global-entity level. -/

theorem categorySummaries_counts (mrows : List MergedRow) :
    (categorySummaries mrows).countP
        (fun s => s.performanceTier = Tier.top) ≤ TOP_N
    ∧ (categorySummaries mrows).countP
        (fun s => s.performanceTier = Tier.potential) ≤ TOP_N := by
  rw [categorySummaries]
  constructor
  · rw [List.Perm.countP_eq _ (sortDescBy_perm _ _)]
    refine le_trans (countP_le_of_key_mem
      (g := fun s : CategorySummary => s.ContentTheme)
      (w := themeTopPerformersSet mrows)
      (List.pairwise_map.mpr (allThemeSummaries_pairwise mrows)) ?_) ?_
    · intro s hs htop
      obtain ⟨b, hb, rfl⟩ := List.mem_map.mp hs
      exact (stdTier_eq_top_iff
        (fun b0 : CategorySummaryBase => b0.ContentTheme)
        (themeTopPerformersSet mrows) (themePotentialPerformersSet mrows)
        b).mp (of_decide_eq_true htop)
    · rw [themeTopPerformersSet]
      exact length_take_topN_map_le _ _
  · rw [List.Perm.countP_eq _ (sortDescBy_perm _ _)]
    refine le_trans (countP_le_of_key_mem
      (g := fun s : CategorySummary => s.ContentTheme)
      (w := themePotentialPerformersSet mrows)
      (List.pairwise_map.mpr (allThemeSummaries_pairwise mrows)) ?_) ?_
    · intro s hs hpot
      obtain ⟨b, hb, rfl⟩ := List.mem_map.mp hs
      exact ((stdTier_eq_pot_iff
        (fun b0 : CategorySummaryBase => b0.ContentTheme)
        (themeTopPerformersSet mrows) (themePotentialPerformersSet mrows)
        b).mp (of_decide_eq_true hpot)).2
    · rw [themePotentialPerformersSet]
      exact length_take_topN_map_le _ _

theorem categorySummaries_threshold (mrows : List MergedRow) :
    ∀ s ∈ categorySummaries mrows,
      (s.performanceTier = Tier.top →
        ARTICLE_COUNT_THRESHOLD < s.articleCount)
      ∧ (s.performanceTier = Tier.potential →
        s.articleCount ≤ ARTICLE_COUNT_THRESHOLD) := by
  intro s hs
  rw [categorySummaries] at hs
  have hs' := (sortDescBy_perm _ _).mem_iff.mp hs
  obtain ⟨b, hb, rfl⟩ := List.mem_map.mp hs'
  have hpw := allThemeSummaries_pairwise mrows
  constructor
  · intro htop
    have hmem := (stdTier_eq_top_iff
      (fun b0 : CategorySummaryBase => b0.ContentTheme)
      (themeTopPerformersSet mrows) (themePotentialPerformersSet mrows)
      b).mp htop
    rw [themeTopPerformersSet] at hmem
    obtain ⟨b', hb', hpb, hgb⟩ := mem_take_sort_filter_map hmem
    have heq : b' = b := eq_of_key_pairwise hpw hb' hb hgb
    subst heq
    exact of_decide_eq_true hpb
  · intro hpot
    obtain ⟨hnot, hmem⟩ := (stdTier_eq_pot_iff
      (fun b0 : CategorySummaryBase => b0.ContentTheme)
      (themeTopPerformersSet mrows) (themePotentialPerformersSet mrows)
      b).mp hpot
    rw [themePotentialPerformersSet] at hmem
    obtain ⟨b', hb', hpb, hgb⟩ := mem_take_sort_filter_map hmem
    have heq : b' = b := eq_of_key_pairwise hpw hb' hb hgb
    subst heq
    exact of_decide_eq_true hpb

theorem entitySummaries_counts (mrows : List MergedRow) :
    (entitySummaries mrows).countP
        (fun s => s.performanceTier = Tier.top) ≤ TOP_N
    ∧ (entitySummaries mrows).countP
        (fun s => s.performanceTier = Tier.potential) ≤ TOP_N := by
  rw [entitySummaries]
  constructor
  · rw [List.Perm.countP_eq _ (sortDescBy_perm _ _)]
    refine le_trans (countP_le_of_key_mem
      (g := fun s : EntityAnalysisSummary => s.Entity)
      (w := globalEntityTopPerformersSet mrows)
      (List.pairwise_map.mpr (allGlobalEntitySummaries_pairwise mrows)) ?_) ?_
    · intro s hs htop
      obtain ⟨b, hb, rfl⟩ := List.mem_map.mp hs
      exact (stdTier_eq_top_iff
        (fun b0 : EntityAnalysisSummaryBase => b0.Entity)
        (globalEntityTopPerformersSet mrows)
        (globalEntityPotentialPerformersSet mrows)
        b).mp (of_decide_eq_true htop)
    · rw [globalEntityTopPerformersSet]
      exact length_take_topN_map_le _ _
  · rw [List.Perm.countP_eq _ (sortDescBy_perm _ _)]
    refine le_trans (countP_le_of_key_mem
      (g := fun s : EntityAnalysisSummary => s.Entity)
      (w := globalEntityPotentialPerformersSet mrows)
      (List.pairwise_map.mpr (allGlobalEntitySummaries_pairwise mrows)) ?_) ?_
    · intro s hs hpot
      obtain ⟨b, hb, rfl⟩ := List.mem_map.mp hs
      exact ((stdTier_eq_pot_iff
        (fun b0 : EntityAnalysisSummaryBase => b0.Entity)
        (globalEntityTopPerformersSet mrows)
        (globalEntityPotentialPerformersSet mrows)
        b).mp (of_decide_eq_true hpot)).2
    · rw [globalEntityPotentialPerformersSet]
      exact length_take_topN_map_le _ _

theorem entitySummaries_threshold (mrows : List MergedRow) :
    ∀ s ∈ entitySummaries mrows,
      (s.performanceTier = Tier.top →
        ARTICLE_COUNT_THRESHOLD < s.articleCount)
      ∧ (s.performanceTier = Tier.potential →
        s.articleCount ≤ ARTICLE_COUNT_THRESHOLD) := by
  intro s hs
  rw [entitySummaries] at hs
  have hs' := (sortDescBy_perm _ _).mem_iff.mp hs
  obtain ⟨b, hb, rfl⟩ := List.mem_map.mp hs'
  have hpw := allGlobalEntitySummaries_pairwise mrows
  constructor
  · intro htop
    have hmem := (stdTier_eq_top_iff
      (fun b0 : EntityAnalysisSummaryBase => b0.Entity)
      (globalEntityTopPerformersSet mrows)
      (globalEntityPotentialPerformersSet mrows) b).mp htop
    rw [globalEntityTopPerformersSet] at hmem
    obtain ⟨b', hb', hpb, hgb⟩ := mem_take_sort_filter_map hmem
    have heq : b' = b := eq_of_key_pairwise hpw hb' hb hgb
    subst heq
    exact of_decide_eq_true hpb
  · intro hpot
    obtain ⟨hnot, hmem⟩ := (stdTier_eq_pot_iff
      (fun b0 : EntityAnalysisSummaryBase => b0.Entity)
      (globalEntityTopPerformersSet mrows)
      (globalEntityPotentialPerformersSet mrows) b).mp hpot
    rw [globalEntityPotentialPerformersSet] at hmem
    obtain ⟨b', hb', hpb, hgb⟩ := mem_take_sort_filter_map hmem
    have heq : b' = b := eq_of_key_pairwise hpw hb' hb hgb
    subst heq
    exact of_decide_eq_true hpb

/-! Delimiter-collision hypotheses: when no label contains the character
`':'`, composite keys split back uniquely. -/

theorem mergeRow_colon_free {items : List CategorizedItem}
    (hfree : ∀ it ∈ items, ':' ∉ it.contentTheme ∧ ':' ∉ it.entity)
    (row : CsvRow) :
    ':' ∉ (mergeRow items row).ContentTheme
    ∧ ':' ∉ (mergeRow items row).Entity := by
  rcases hc : categorizedMapGet items row.URL with _ | ⟨t, e, s⟩
  · refine ⟨?_, ?_⟩ <;> simp [mergeRow, hc, uncategorizedLabel]
  · have hc' : (items.reverse.find? (fun x => x.url = row.URL)).map
        (fun x => (x.contentTheme, x.entity, x.subEntity)) = some (t, e, s) :=
      hc
    obtain ⟨it, hfind, hit⟩ := Option.map_eq_some'.mp hc'
    have hmem : it ∈ items := List.mem_reverse.mp
      (List.mem_of_find?_eq_some hfind)
    have h1 : it.contentTheme = t := congrArg Prod.fst hit
    have h2 : it.entity = e := congrArg (fun x => x.2.1) hit
    have hffree := hfree it hmem
    rw [h1, h2] at hffree
    refine ⟨?_, ?_⟩ <;> simp [mergeRow, hc] <;> [exact hffree.1; exact hffree.2]

theorem mergedData_colon_free {items : List CategorizedItem}
    {rows : List CsvRow}
    (hfree : ∀ it ∈ items, ':' ∉ it.contentTheme ∧ ':' ∉ it.entity) :
    ∀ r ∈ mergedData items rows, ':' ∉ r.ContentTheme ∧ ':' ∉ r.Entity := by
  intro r hr
  obtain ⟨row, _, rfl⟩ := List.mem_map.mp hr
  exact mergeRow_colon_free hfree row

theorem categorizedUrls_colon_free {mrows : List MergedRow}
    (h : ∀ r ∈ mrows, ':' ∉ r.ContentTheme ∧ ':' ∉ r.Entity) :
    ∀ u ∈ categorizedUrls mrows, ':' ∉ u.ContentTheme ∧ ':' ∉ u.Entity := by
  intro u hu
  rw [categorizedUrls] at hu
  obtain ⟨r, hr, rfl⟩ := List.mem_map.mp hu
  exact h r hr

theorem discoverTop100_colon_free {curls : List CategorizedUrlData}
    (h : ∀ u ∈ curls, ':' ∉ u.ContentTheme ∧ ':' ∉ u.Entity) :
    ∀ u ∈ discoverTop100Urls curls,
      ':' ∉ u.ContentTheme ∧ ':' ∉ u.Entity := by
  intro u hu
  rw [discoverTop100Urls] at hu
  exact h u ((sortDescBy_perm _ _).mem_iff.mp (List.take_subset _ _ hu))

theorem entityTotals_key_shape {mrows : List MergedRow}
    (hfree : ∀ r ∈ mrows, ':' ∉ r.ContentTheme ∧ ':' ∉ r.Entity)
    {p : Str × Totals} (hp : p ∈ entityTotals mrows) :
    ∃ t e, ':' ∉ t ∧ ':' ∉ e ∧ p.1 = entityKeyStr t e := by
  have hk : p.1 ∈ keysOf (entityTotals mrows) := List.mem_map.mpr ⟨p, hp, rfl⟩
  rw [entityTotals] at hk
  obtain ⟨r, hr, hkey⟩ := mem_keysOf_accum.mp hk
  have hfr := hfree r hr
  exact ⟨r.ContentTheme, r.Entity, hfr.1, hfr.2,
    (Option.some.inj hkey).symm⟩

theorem discoverEntityTotals_key_shape {curls : List CategorizedUrlData}
    (hfree : ∀ u ∈ discoverTop100Urls curls,
      ':' ∉ u.ContentTheme ∧ ':' ∉ u.Entity)
    {p : Str × Totals} (hp : p ∈ discoverEntityTotals curls) :
    ∃ t e, ':' ∉ t ∧ ':' ∉ e ∧ p.1 = entityKeyStr t e := by
  have hk : p.1 ∈ keysOf (discoverEntityTotals curls) :=
    List.mem_map.mpr ⟨p, hp, rfl⟩
  rw [discoverEntityTotals] at hk
  obtain ⟨r, hr, hkey⟩ := mem_keysOf_accum.mp hk
  have hfr := hfree r hr
  exact ⟨r.ContentTheme, r.Entity, hfr.1, hfr.2,
    (Option.some.inj hkey).symm⟩

theorem recombine_of_shape {k : Str}
    (h : ∃ t e, ':' ∉ t ∧ ':' ∉ e ∧ k = entityKeyStr t e) :
    entityKeyStr (displayPair k).1 (displayPair k).2 = k := by
  obtain ⟨t, e, ht, he, rfl⟩ := h
  rw [displayPair_entityKeyStr ht he]

theorem allEntitySummaries_pairwise_of {mrows : List MergedRow}
    (hfree : ∀ r ∈ mrows, ':' ∉ r.ContentTheme ∧ ':' ∉ r.Entity) :
    (allEntitySummaries mrows).Pairwise
      (fun a b => entityKeyStr a.ParentTheme a.Entity ≠
        entityKeyStr b.ParentTheme b.Entity) := by
  rw [allEntitySummaries]
  apply List.pairwise_map.mpr
  have hpw := accum_pairwise_keys entityKey (fun r => r.Clicks)
    (fun r => r.Impressions) mrows
  refine List.Pairwise.imp_of_mem ?_ hpw
  intro p q hp hq hne
  have hsp := recombine_of_shape (entityTotals_key_shape hfree hp)
  have hsq := recombine_of_shape (entityTotals_key_shape hfree hq)
  intro hcon
  exact hne (by rw [← hsp, ← hsq, hcon])

theorem subcategorySummaries_counts {mrows : List MergedRow}
    (hfree : ∀ r ∈ mrows, ':' ∉ r.ContentTheme ∧ ':' ∉ r.Entity) :
    (subcategorySummaries mrows).countP
        (fun s => s.performanceTier = Tier.top) ≤ TOP_N
    ∧ (subcategorySummaries mrows).countP
        (fun s => s.performanceTier = Tier.potential) ≤ TOP_N := by
  rw [subcategorySummaries]
  constructor
  · rw [List.Perm.countP_eq _ (sortDescBy_perm _ _)]
    refine le_trans (countP_le_of_key_mem
      (g := fun s : SubcategorySummary => entityKeyStr s.ParentTheme s.Entity)
      (w := entityTopPerformersSet mrows)
      (List.pairwise_map.mpr (allEntitySummaries_pairwise_of hfree)) ?_) ?_
    · intro s hs htop
      obtain ⟨b, hb, rfl⟩ := List.mem_map.mp hs
      exact (stdTier_eq_top_iff
        (fun b0 : SubcategorySummaryBase =>
          entityKeyStr b0.ParentTheme b0.Entity)
        (entityTopPerformersSet mrows) (entityPotentialPerformersSet mrows)
        b).mp (of_decide_eq_true htop)
    · rw [entityTopPerformersSet]
      exact length_take_topN_map_le _ _
  · rw [List.Perm.countP_eq _ (sortDescBy_perm _ _)]
    refine le_trans (countP_le_of_key_mem
      (g := fun s : SubcategorySummary => entityKeyStr s.ParentTheme s.Entity)
      (w := entityPotentialPerformersSet mrows)
      (List.pairwise_map.mpr (allEntitySummaries_pairwise_of hfree)) ?_) ?_
    · intro s hs hpot
      obtain ⟨b, hb, rfl⟩ := List.mem_map.mp hs
      exact ((stdTier_eq_pot_iff
        (fun b0 : SubcategorySummaryBase =>
          entityKeyStr b0.ParentTheme b0.Entity)
        (entityTopPerformersSet mrows) (entityPotentialPerformersSet mrows)
        b).mp (of_decide_eq_true hpot)).2
    · rw [entityPotentialPerformersSet]
      exact length_take_topN_map_le _ _

theorem subcategorySummaries_threshold {mrows : List MergedRow}
    (hfree : ∀ r ∈ mrows, ':' ∉ r.ContentTheme ∧ ':' ∉ r.Entity) :
    ∀ s ∈ subcategorySummaries mrows,
      (s.performanceTier = Tier.top →
        ARTICLE_COUNT_THRESHOLD < s.articleCount)
      ∧ (s.performanceTier = Tier.potential →
        s.articleCount ≤ ARTICLE_COUNT_THRESHOLD) := by
  intro s hs
  rw [subcategorySummaries] at hs
  have hs' := (sortDescBy_perm _ _).mem_iff.mp hs
  obtain ⟨b, hb, rfl⟩ := List.mem_map.mp hs'
  have hpw := allEntitySummaries_pairwise_of hfree
  constructor
  · intro htop
    have hmem := (stdTier_eq_top_iff
      (fun b0 : SubcategorySummaryBase =>
        entityKeyStr b0.ParentTheme b0.Entity)
      (entityTopPerformersSet mrows) (entityPotentialPerformersSet mrows)
      b).mp htop
    rw [entityTopPerformersSet] at hmem
    obtain ⟨b', hb', hpb, hgb⟩ := mem_take_sort_filter_map hmem
    have heq : b' = b := eq_of_key_pairwise hpw hb' hb hgb
    subst heq
    exact of_decide_eq_true hpb
  · intro hpot
    obtain ⟨hnot, hmem⟩ := (stdTier_eq_pot_iff
      (fun b0 : SubcategorySummaryBase =>
        entityKeyStr b0.ParentTheme b0.Entity)
      (entityTopPerformersSet mrows) (entityPotentialPerformersSet mrows)
      b).mp hpot
    rw [entityPotentialPerformersSet] at hmem
    obtain ⟨b', hb', hpb, hgb⟩ := mem_take_sort_filter_map hmem
    have heq : b' = b := eq_of_key_pairwise hpw hb' hb hgb
    subst heq
    exact of_decide_eq_true hpb

/-! Discover tiering: single-pool top-5 characterization. -/

theorem allDiscoverThemeSummaries_pairwise (curls : List CategorizedUrlData) :
    (allDiscoverThemeSummaries curls).Pairwise
      (fun a b => a.ContentTheme ≠ b.ContentTheme) := by
  rw [allDiscoverThemeSummaries]
  exact List.pairwise_map.mpr
    (accum_pairwise_keys _ _ _ _)

theorem sortedDiscoverThemeSummaries_pairwise
    (curls : List CategorizedUrlData) :
    (sortedDiscoverThemeSummaries curls).Pairwise
      (fun a b => a.ContentTheme ≠ b.ContentTheme) := by
  rw [sortedDiscoverThemeSummaries]
  exact ((sortDescBy_perm _ _).pairwise_iff
    (fun hxy hyx => hxy hyx.symm)).mpr
    (allDiscoverThemeSummaries_pairwise curls)

theorem discover_theme_tier_char (curls : List CategorizedUrlData) :
    ∀ s ∈ discoverCategorySummaries curls,
      (s.performanceTier = Tier.top ↔
        s.toDiscoverCategorySummaryBase ∈ discoverThemeTopPerformers curls
        ∧ ARTICLE_COUNT_THRESHOLD < s.articleCount)
      ∧ (s.performanceTier = Tier.potential ↔
        s.toDiscoverCategorySummaryBase ∈ discoverThemeTopPerformers curls
        ∧ s.articleCount ≤ ARTICLE_COUNT_THRESHOLD)
      ∧ (s.performanceTier = Tier.standard ↔
        s.toDiscoverCategorySummaryBase ∉ discoverThemeTopPerformers curls) := by
  intro s hs
  rw [discoverCategorySummaries] at hs
  have hs' := (sortDescBy_perm _ _).mem_iff.mp hs
  obtain ⟨b, hb, rfl⟩ := List.mem_map.mp hs'
  have hball : b ∈ allDiscoverThemeSummaries curls := by
    rw [sortedDiscoverThemeSummaries] at hb
    exact (sortDescBy_perm _ _).mem_iff.mp hb
  have hpwAll := allDiscoverThemeSummaries_pairwise curls
  rcases hf : (discoverThemeTopPerformers curls).find?
      (fun p => p.ContentTheme = b.ContentTheme) with _ | p
  · have hnot : b ∉ discoverThemeTopPerformers curls := by
      intro hmem
      have := List.find?_eq_none.mp hf b hmem
      simp at this
    refine ⟨?_, ?_, ?_⟩ <;> simp [discoverThemeTierFor, hf, hnot]
  · have hpmem : p ∈ discoverThemeTopPerformers curls :=
      List.mem_of_find?_eq_some hf
    have hpct : p.ContentTheme = b.ContentTheme := by
      have h0 := List.find?_some hf
      simpa using h0
    have hpall : p ∈ allDiscoverThemeSummaries curls := by
      have hp1 : p ∈ sortedDiscoverThemeSummaries curls := by
        rw [discoverThemeTopPerformers] at hpmem
        exact List.take_subset _ _ hpmem
      rw [sortedDiscoverThemeSummaries] at hp1
      exact (sortDescBy_perm _ _).mem_iff.mp hp1
    have hpb : p = b := eq_of_key_pairwise hpwAll hpall hball hpct
    subst hpb
    by_cases hcnt : ARTICLE_COUNT_THRESHOLD < p.articleCount
    · refine ⟨?_, ?_, ?_⟩ <;>
        simp [discoverThemeTierFor, hf, hcnt, hpmem, Nat.not_le_of_lt hcnt]
    · refine ⟨?_, ?_, ?_⟩ <;>
        simp [discoverThemeTierFor, hf, hcnt, hpmem, Nat.le_of_not_lt hcnt]

theorem discoverThemeTopPerformers_map_length
    (curls : List CategorizedUrlData) :
    ((discoverThemeTopPerformers curls).map
      (fun p => p.ContentTheme)).length ≤ TOP_N := by
  rw [discoverThemeTopPerformers]
  exact length_take_topN_map_le _ _

theorem discoverCategorySummaries_counts (curls : List CategorizedUrlData) :
    (discoverCategorySummaries curls).countP
        (fun s => s.performanceTier = Tier.top) ≤ TOP_N
    ∧ (discoverCategorySummaries curls).countP
        (fun s => s.performanceTier = Tier.potential) ≤ TOP_N := by
  rw [discoverCategorySummaries]
  constructor
  · rw [List.Perm.countP_eq _ (sortDescBy_perm _ _)]
    refine le_trans (countP_le_of_key_mem
      (g := fun s : DiscoverCategorySummary => s.ContentTheme)
      (w := (discoverThemeTopPerformers curls).map (fun p => p.ContentTheme))
      (List.pairwise_map.mpr (sortedDiscoverThemeSummaries_pairwise curls))
      ?_) (discoverThemeTopPerformers_map_length curls)
    intro s hs htier
    obtain ⟨b, hb, rfl⟩ := List.mem_map.mp hs
    have htier' := of_decide_eq_true htier
    rcases hf : (discoverThemeTopPerformers curls).find?
        (fun p => p.ContentTheme = b.ContentTheme) with _ | p
    · simp [discoverThemeTierFor, hf] at htier'
    · have h0 := List.find?_some hf
      have hpct : p.ContentTheme = b.ContentTheme := by simpa using h0
      exact List.mem_map.mpr ⟨p, List.mem_of_find?_eq_some hf, hpct⟩
  · rw [List.Perm.countP_eq _ (sortDescBy_perm _ _)]
    refine le_trans (countP_le_of_key_mem
      (g := fun s : DiscoverCategorySummary => s.ContentTheme)
      (w := (discoverThemeTopPerformers curls).map (fun p => p.ContentTheme))
      (List.pairwise_map.mpr (sortedDiscoverThemeSummaries_pairwise curls))
      ?_) (discoverThemeTopPerformers_map_length curls)
    intro s hs htier
    obtain ⟨b, hb, rfl⟩ := List.mem_map.mp hs
    have htier' := of_decide_eq_true htier
    rcases hf : (discoverThemeTopPerformers curls).find?
        (fun p => p.ContentTheme = b.ContentTheme) with _ | p
    · simp [discoverThemeTierFor, hf] at htier'
    · have h0 := List.find?_some hf
      have hpct : p.ContentTheme = b.ContentTheme := by simpa using h0
      exact List.mem_map.mpr ⟨p, List.mem_of_find?_eq_some hf, hpct⟩

theorem allDiscoverEntitySummaries_pairwise_of {curls : List CategorizedUrlData}
    (hfree : ∀ u ∈ discoverTop100Urls curls,
      ':' ∉ u.ContentTheme ∧ ':' ∉ u.Entity) :
    (allDiscoverEntitySummaries curls).Pairwise
      (fun a b => entityKeyStr a.ParentTheme a.Entity ≠
        entityKeyStr b.ParentTheme b.Entity) := by
  rw [allDiscoverEntitySummaries]
  apply List.pairwise_map.mpr
  have hpw : (discoverEntityTotals curls).Pairwise (fun p q => p.1 ≠ q.1) :=
    accum_pairwise_keys _ _ _ _
  refine List.Pairwise.imp_of_mem ?_ hpw
  intro p q hp hq hne hcon
  have hsp := recombine_of_shape (discoverEntityTotals_key_shape hfree hp)
  have hsq := recombine_of_shape (discoverEntityTotals_key_shape hfree hq)
  exact hne (by rw [← hsp, ← hsq, hcon])

theorem sortedDiscoverEntitySummaries_pairwise_of
    {curls : List CategorizedUrlData}
    (hfree : ∀ u ∈ discoverTop100Urls curls,
      ':' ∉ u.ContentTheme ∧ ':' ∉ u.Entity) :
    (sortedDiscoverEntitySummaries curls).Pairwise
      (fun a b => entityKeyStr a.ParentTheme a.Entity ≠
        entityKeyStr b.ParentTheme b.Entity) := by
  rw [sortedDiscoverEntitySummaries]
  exact ((sortDescBy_perm _ _).pairwise_iff
    (fun hxy hyx => hxy hyx.symm)).mpr
    (allDiscoverEntitySummaries_pairwise_of hfree)

theorem discover_entity_tier_char {curls : List CategorizedUrlData}
    (hfree : ∀ u ∈ discoverTop100Urls curls,
      ':' ∉ u.ContentTheme ∧ ':' ∉ u.Entity) :
    ∀ s ∈ discoverSubcategorySummaries curls,
      (s.performanceTier = Tier.top ↔
        s.toDiscoverSubcategorySummaryBase ∈ discoverEntityTopPerformers curls
        ∧ ARTICLE_COUNT_THRESHOLD < s.articleCount)
      ∧ (s.performanceTier = Tier.potential ↔
        s.toDiscoverSubcategorySummaryBase ∈ discoverEntityTopPerformers curls
        ∧ s.articleCount ≤ ARTICLE_COUNT_THRESHOLD)
      ∧ (s.performanceTier = Tier.standard ↔
        s.toDiscoverSubcategorySummaryBase ∉
          discoverEntityTopPerformers curls) := by
  intro s hs
  rw [discoverSubcategorySummaries] at hs
  have hs' := (sortDescBy_perm _ _).mem_iff.mp hs
  obtain ⟨b, hb, rfl⟩ := List.mem_map.mp hs'
  have hball : b ∈ allDiscoverEntitySummaries curls := by
    rw [sortedDiscoverEntitySummaries] at hb
    exact (sortDescBy_perm _ _).mem_iff.mp hb
  have hpwAll := allDiscoverEntitySummaries_pairwise_of hfree
  rcases hf : (discoverEntityTopPerformers curls).find?
      (fun p => p.Entity = b.Entity ∧ p.ParentTheme = b.ParentTheme)
      with _ | p
  · have hnot : b ∉ discoverEntityTopPerformers curls := by
      intro hmem
      have := List.find?_eq_none.mp hf b hmem
      simp at this
    have htf : discoverEntityTierFor (discoverEntityTopPerformers curls) b =
        Tier.standard := by
      simp only [discoverEntityTierFor]
      rw [hf]
    refine ⟨?_, ?_, ?_⟩ <;> simp [htf, hnot]
  · have hpmem : p ∈ discoverEntityTopPerformers curls :=
      List.mem_of_find?_eq_some hf
    have hpp : p.Entity = b.Entity ∧ p.ParentTheme = b.ParentTheme := by
      have h0 := List.find?_some hf
      simpa using h0
    have hpkey : entityKeyStr p.ParentTheme p.Entity =
        entityKeyStr b.ParentTheme b.Entity := by
      rw [hpp.1, hpp.2]
    have hpall : p ∈ allDiscoverEntitySummaries curls := by
      have hp1 : p ∈ sortedDiscoverEntitySummaries curls := by
        rw [discoverEntityTopPerformers] at hpmem
        exact List.take_subset _ _ hpmem
      rw [sortedDiscoverEntitySummaries] at hp1
      exact (sortDescBy_perm _ _).mem_iff.mp hp1
    have hpb : p = b := eq_of_key_pairwise hpwAll hpall hball hpkey
    subst hpb
    by_cases hcnt : ARTICLE_COUNT_THRESHOLD < p.articleCount
    · have htf : discoverEntityTierFor (discoverEntityTopPerformers curls) p =
          Tier.top := by
        simp only [discoverEntityTierFor]
        rw [hf]
        simp [hcnt]
      refine ⟨?_, ?_, ?_⟩ <;> simp [htf, hcnt, hpmem, Nat.not_le_of_lt hcnt]
    · have htf : discoverEntityTierFor (discoverEntityTopPerformers curls) p =
          Tier.potential := by
        simp only [discoverEntityTierFor]
        rw [hf]
        simp [hcnt]
      refine ⟨?_, ?_, ?_⟩ <;> simp [htf, hcnt, hpmem, Nat.le_of_not_lt hcnt]

theorem discoverEntityTopPerformers_map_length
    (curls : List CategorizedUrlData) :
    ((discoverEntityTopPerformers curls).map
      (fun p => entityKeyStr p.ParentTheme p.Entity)).length ≤ TOP_N := by
  rw [discoverEntityTopPerformers]
  exact length_take_topN_map_le _ _

theorem discoverSubcategorySummaries_counts {curls : List CategorizedUrlData}
    (hfree : ∀ u ∈ discoverTop100Urls curls,
      ':' ∉ u.ContentTheme ∧ ':' ∉ u.Entity) :
    (discoverSubcategorySummaries curls).countP
        (fun s => s.performanceTier = Tier.top) ≤ TOP_N
    ∧ (discoverSubcategorySummaries curls).countP
        (fun s => s.performanceTier = Tier.potential) ≤ TOP_N := by
  rw [discoverSubcategorySummaries]
  constructor
  · rw [List.Perm.countP_eq _ (sortDescBy_perm _ _)]
    refine le_trans (countP_le_of_key_mem
      (g := fun s : DiscoverSubcategorySummary =>
        entityKeyStr s.ParentTheme s.Entity)
      (w := (discoverEntityTopPerformers curls).map
        (fun p => entityKeyStr p.ParentTheme p.Entity))
      (List.pairwise_map.mpr (sortedDiscoverEntitySummaries_pairwise_of hfree))
      ?_) (discoverEntityTopPerformers_map_length curls)
    intro s hs htier
    obtain ⟨b, hb, rfl⟩ := List.mem_map.mp hs
    have htier' := of_decide_eq_true htier
    rcases hf : (discoverEntityTopPerformers curls).find?
        (fun p => p.Entity = b.Entity ∧ p.ParentTheme = b.ParentTheme)
        with _ | p
    · have htf : discoverEntityTierFor (discoverEntityTopPerformers curls) b =
          Tier.standard := by
        simp only [discoverEntityTierFor]
        rw [hf]
      rw [htf] at htier'
      simp at htier'
    · have hpp : p.Entity = b.Entity ∧ p.ParentTheme = b.ParentTheme := by
        have h0 := List.find?_some hf
        simpa using h0
      refine List.mem_map.mpr ⟨p, List.mem_of_find?_eq_some hf, ?_⟩
      rw [hpp.1, hpp.2]
  · rw [List.Perm.countP_eq _ (sortDescBy_perm _ _)]
    refine le_trans (countP_le_of_key_mem
      (g := fun s : DiscoverSubcategorySummary =>
        entityKeyStr s.ParentTheme s.Entity)
      (w := (discoverEntityTopPerformers curls).map
        (fun p => entityKeyStr p.ParentTheme p.Entity))
      (List.pairwise_map.mpr (sortedDiscoverEntitySummaries_pairwise_of hfree))
      ?_) (discoverEntityTopPerformers_map_length curls)
    intro s hs htier
    obtain ⟨b, hb, rfl⟩ := List.mem_map.mp hs
    have htier' := of_decide_eq_true htier
    rcases hf : (discoverEntityTopPerformers curls).find?
        (fun p => p.Entity = b.Entity ∧ p.ParentTheme = b.ParentTheme)
        with _ | p
    · have htf : discoverEntityTierFor (discoverEntityTopPerformers curls) b =
          Tier.standard := by
        simp only [discoverEntityTierFor]
        rw [hf]
      rw [htf] at htier'
      simp at htier'
    · have hpp : p.Entity = b.Entity ∧ p.ParentTheme = b.ParentTheme := by
        have h0 := List.find?_some hf
        simpa using h0
      refine List.mem_map.mpr ⟨p, List.mem_of_find?_eq_some hf, ?_⟩
      rw [hpp.1, hpp.2]

/-! Claim C4 (amended) and Claim C5 (amended). -/

/-- Claim C4 (amended): every tiered output assigns each group exactly one
tier (groups are pairwise distinct); at most `TOP_N` groups get `top` and at
most `TOP_N` get `potential` — unconditionally for the theme, global-entity
and discover-theme outputs, and for the two theme+entity outputs provided no
classification label contains the character `':'` (with such labels the
composite-key split can alias distinct groups and the caps can be
exceeded). -/
theorem C4_tier_disjointness_caps (items : List CategorizedItem)
    (rows : List CsvRow) :
    ((categorySummariesOf items rows).Pairwise
        (fun a b => a.ContentTheme ≠ b.ContentTheme)
      ∧ (categorySummariesOf items rows).countP
          (fun s => s.performanceTier = Tier.top) ≤ TOP_N
      ∧ (categorySummariesOf items rows).countP
          (fun s => s.performanceTier = Tier.potential) ≤ TOP_N)
    ∧ ((entitySummariesOf items rows).Pairwise
        (fun a b => a.Entity ≠ b.Entity)
      ∧ (entitySummariesOf items rows).countP
          (fun s => s.performanceTier = Tier.top) ≤ TOP_N
      ∧ (entitySummariesOf items rows).countP
          (fun s => s.performanceTier = Tier.potential) ≤ TOP_N)
    ∧ ((discoverCategorySummariesOf items rows).Pairwise
        (fun a b => a.ContentTheme ≠ b.ContentTheme)
      ∧ (discoverCategorySummariesOf items rows).countP
          (fun s => s.performanceTier = Tier.top) ≤ TOP_N
      ∧ (discoverCategorySummariesOf items rows).countP
          (fun s => s.performanceTier = Tier.potential) ≤ TOP_N)
    ∧ ((∀ it ∈ items, ':' ∉ it.contentTheme ∧ ':' ∉ it.entity) →
      ((subcategorySummariesOf items rows).Pairwise
          (fun a b => (a.ParentTheme, a.Entity) ≠ (b.ParentTheme, b.Entity))
        ∧ (subcategorySummariesOf items rows).countP
            (fun s => s.performanceTier = Tier.top) ≤ TOP_N
        ∧ (subcategorySummariesOf items rows).countP
            (fun s => s.performanceTier = Tier.potential) ≤ TOP_N)
      ∧ ((discoverSubcategorySummariesOf items rows).Pairwise
          (fun a b => (a.ParentTheme, a.Entity) ≠ (b.ParentTheme, b.Entity))
        ∧ (discoverSubcategorySummariesOf items rows).countP
            (fun s => s.performanceTier = Tier.top) ≤ TOP_N
        ∧ (discoverSubcategorySummariesOf items rows).countP
            (fun s => s.performanceTier = Tier.potential) ≤ TOP_N)) := by
  refine ⟨⟨?_, (categorySummaries_counts _).1, (categorySummaries_counts _).2⟩,
    ⟨?_, (entitySummaries_counts _).1, (entitySummaries_counts _).2⟩,
    ⟨?_, (discoverCategorySummaries_counts _).1,
      (discoverCategorySummaries_counts _).2⟩, ?_⟩
  · rw [categorySummariesOf, categorySummaries]
    exact ((sortDescBy_perm _ _).pairwise_iff
      (fun hxy hyx => hxy hyx.symm)).mpr
      (List.pairwise_map.mpr (allThemeSummaries_pairwise _))
  · rw [entitySummariesOf, entitySummaries]
    exact ((sortDescBy_perm _ _).pairwise_iff
      (fun hxy hyx => hxy hyx.symm)).mpr
      (List.pairwise_map.mpr (allGlobalEntitySummaries_pairwise _))
  · rw [discoverCategorySummariesOf, discoverCategorySummaries]
    exact ((sortDescBy_perm _ _).pairwise_iff
      (fun hxy hyx => hxy hyx.symm)).mpr
      (List.pairwise_map.mpr (sortedDiscoverThemeSummaries_pairwise _))
  · intro hitems
    have hfreeM := @mergedData_colon_free items rows hitems
    have hfreeD := discoverTop100_colon_free
      (categorizedUrls_colon_free hfreeM)
    refine ⟨⟨?_, (subcategorySummaries_counts hfreeM).1,
        (subcategorySummaries_counts hfreeM).2⟩,
      ⟨?_, (discoverSubcategorySummaries_counts hfreeD).1,
        (discoverSubcategorySummaries_counts hfreeD).2⟩⟩
    · rw [subcategorySummariesOf, subcategorySummaries]
      refine ((sortDescBy_perm _ _).pairwise_iff
        (fun hxy hyx => hxy hyx.symm)).mpr
        (List.pairwise_map.mpr ?_)
      refine (allEntitySummaries_pairwise_of hfreeM).imp ?_
      intro a b hne hcon
      exact hne (by
        rw [show a.ParentTheme = b.ParentTheme from congrArg Prod.fst hcon,
          show a.Entity = b.Entity from congrArg Prod.snd hcon])
    · rw [discoverSubcategorySummariesOf, discoverSubcategorySummaries]
      refine ((sortDescBy_perm _ _).pairwise_iff
        (fun hxy hyx => hxy hyx.symm)).mpr
        (List.pairwise_map.mpr ?_)
      refine (sortedDiscoverEntitySummaries_pairwise_of hfreeD).imp ?_
      intro a b hne hcon
      exact hne (by
        rw [show a.ParentTheme = b.ParentTheme from congrArg Prod.fst hcon,
          show a.Entity = b.Entity from congrArg Prod.snd hcon])

/-- Claim C5 (amended): every `top` group has `articleCount >
ARTICLE_COUNT_THRESHOLD` and every `potential` group has `articleCount ≤
ARTICLE_COUNT_THRESHOLD` — unconditionally for the theme, global-entity and
discover-theme outputs, and for the two theme+entity outputs provided no
classification label contains `':'`. -/
theorem C5_threshold_partition (items : List CategorizedItem)
    (rows : List CsvRow) :
    (∀ s ∈ categorySummariesOf items rows,
      (s.performanceTier = Tier.top →
        ARTICLE_COUNT_THRESHOLD < s.articleCount)
      ∧ (s.performanceTier = Tier.potential →
        s.articleCount ≤ ARTICLE_COUNT_THRESHOLD))
    ∧ (∀ s ∈ entitySummariesOf items rows,
      (s.performanceTier = Tier.top →
        ARTICLE_COUNT_THRESHOLD < s.articleCount)
      ∧ (s.performanceTier = Tier.potential →
        s.articleCount ≤ ARTICLE_COUNT_THRESHOLD))
    ∧ (∀ s ∈ discoverCategorySummariesOf items rows,
      (s.performanceTier = Tier.top →
        ARTICLE_COUNT_THRESHOLD < s.articleCount)
      ∧ (s.performanceTier = Tier.potential →
        s.articleCount ≤ ARTICLE_COUNT_THRESHOLD))
    ∧ ((∀ it ∈ items, ':' ∉ it.contentTheme ∧ ':' ∉ it.entity) →
      (∀ s ∈ subcategorySummariesOf items rows,
        (s.performanceTier = Tier.top →
          ARTICLE_COUNT_THRESHOLD < s.articleCount)
        ∧ (s.performanceTier = Tier.potential →
          s.articleCount ≤ ARTICLE_COUNT_THRESHOLD))
      ∧ (∀ s ∈ discoverSubcategorySummariesOf items rows,
        (s.performanceTier = Tier.top →
          ARTICLE_COUNT_THRESHOLD < s.articleCount)
        ∧ (s.performanceTier = Tier.potential →
          s.articleCount ≤ ARTICLE_COUNT_THRESHOLD))) := by
  refine ⟨categorySummaries_threshold _, entitySummaries_threshold _,
    ?_, ?_⟩
  · intro s hs
    have hc := discover_theme_tier_char _ s hs
    exact ⟨fun ht => (hc.1.mp ht).2, fun hp => (hc.2.1.mp hp).2⟩
  · intro hitems
    have hfreeM := @mergedData_colon_free items rows hitems
    have hfreeD := discoverTop100_colon_free
      (categorizedUrls_colon_free hfreeM)
    refine ⟨subcategorySummaries_threshold hfreeM, ?_⟩
    intro s hs
    have hc := discover_entity_tier_char hfreeD s hs
    exact ⟨fun ht => (hc.1.mp ht).2, fun hp => (hc.2.1.mp hp).2⟩

/-! Claim C1: discover tiering. -/

/-- Modelled from the spec: the standard two-pool Tier Classifier of spec
section 4.3, with `totalClicks` as the ranking metric as section 4.5
instructs for the Discover subset — pool A (`articleCount >
articleCountThreshold`) yields up to `topN` groups tiered `top`, pool B
(`articleCount <= articleCountThreshold`) independently yields up to `topN`
groups tiered `potential`, everything else `standard`.  This is the tiering
the claim asserts for the discover aggregates; the code disagrees. -/
def specTwoPoolDiscoverTiers (l : List DiscoverCategorySummaryBase) :
    List DiscoverCategorySummary :=
  l.map (fun s =>
    { toDiscoverCategorySummaryBase := s,
      performanceTier :=
        if s.ContentTheme ∈ ((List.take TOP_N (sortDescBy
            (fun x : DiscoverCategorySummaryBase => x.totalClicks)
            (l.filter (fun x => ARTICLE_COUNT_THRESHOLD < x.articleCount)))).map
            (fun x => x.ContentTheme)) then Tier.top
        else if s.ContentTheme ∈ ((List.take TOP_N (sortDescBy
            (fun x : DiscoverCategorySummaryBase => x.totalClicks)
            (l.filter (fun x => x.articleCount ≤ ARTICLE_COUNT_THRESHOLD)))).map
            (fun x => x.ContentTheme)) then Tier.potential
        else Tier.standard })

/-- Claim C1 (amended): the Discover tiering actually implemented selects one
single pool — the top `TOP_N` groups of the whole aggregate set by
`totalClicks`; a selected group is `top` when its `articleCount` exceeds the
threshold and `potential` otherwise, and every unselected group is
`standard` (so at most `TOP_N` groups in total get a non-standard tier).
For the theme+entity aggregates the same rule holds provided no label
contains `':'`. -/
theorem C1_discover_single_pool_tiering (items : List CategorizedItem)
    (rows : List CsvRow) :
    (∀ s ∈ discoverCategorySummariesOf items rows,
      (s.performanceTier = Tier.top ↔
        s.toDiscoverCategorySummaryBase ∈
          discoverThemeTopPerformers (categorizedUrlsOf items rows)
        ∧ ARTICLE_COUNT_THRESHOLD < s.articleCount)
      ∧ (s.performanceTier = Tier.potential ↔
        s.toDiscoverCategorySummaryBase ∈
          discoverThemeTopPerformers (categorizedUrlsOf items rows)
        ∧ s.articleCount ≤ ARTICLE_COUNT_THRESHOLD)
      ∧ (s.performanceTier = Tier.standard ↔
        s.toDiscoverCategorySummaryBase ∉
          discoverThemeTopPerformers (categorizedUrlsOf items rows)))
    ∧ ((∀ it ∈ items, ':' ∉ it.contentTheme ∧ ':' ∉ it.entity) →
      ∀ s ∈ discoverSubcategorySummariesOf items rows,
        (s.performanceTier = Tier.top ↔
          s.toDiscoverSubcategorySummaryBase ∈
            discoverEntityTopPerformers (categorizedUrlsOf items rows)
          ∧ ARTICLE_COUNT_THRESHOLD < s.articleCount)
        ∧ (s.performanceTier = Tier.potential ↔
          s.toDiscoverSubcategorySummaryBase ∈
            discoverEntityTopPerformers (categorizedUrlsOf items rows)
          ∧ s.articleCount ≤ ARTICLE_COUNT_THRESHOLD)
        ∧ (s.performanceTier = Tier.standard ↔
          s.toDiscoverSubcategorySummaryBase ∉
            discoverEntityTopPerformers (categorizedUrlsOf items rows))) := by
  refine ⟨discover_theme_tier_char _, ?_⟩
  intro hitems
  exact discover_entity_tier_char
    (discoverTop100_colon_free (categorizedUrls_colon_free
      (mergedData_colon_free hitems)))

/-! Concrete inputs for counterexamples and witnesses. -/

/-- A metric row with the given URL and clicks/impressions. -/
def mkRow (u : String) (c i : Int) : CsvRow := ⟨u.data, c, i, none, none⟩

/-- A classification item for the given URL. -/
def mkItem (u t e se : String) : CategorizedItem :=
  ⟨u.data, t.data, e.data, se.data⟩

/-- Claim C2 failing input, rows: two URLs. -/
def c2Rows : List CsvRow := [mkRow "a1" 5 0, mkRow "a2" 7 0]

/-- Claim C2 failing input, classifications: the distinct label pairs
`("A", "B::C")` and `("A::B", "C")` produce the same composite key. -/
def c2Items : List CategorizedItem :=
  [mkItem "a1" "A" "B::C" "s", mkItem "a2" "A::B" "C" "s"]

/-- Claim C2: evaluating the code at the failing input shows the bug — the
two rows carrying the distinct classification pairs `("A", "B::C")` and
`("A::B", "C")` are aggregated into a single theme+entity group
(`articleCount = 2`, both rows' clicks summed), and that group is displayed
with `ParentTheme = "A"`, `Entity = "B"`, which is neither input pair. -/
theorem C2_delimiter_collision :
    (subcategorySummariesOf c2Items c2Rows).map
      (fun s => (s.ParentTheme, s.Entity, s.articleCount, s.totalClicks)) =
    [("A".data, "B".data, 2, 12)] := by decide

/-- Claim C1 counterexample input, rows. -/
def c1Rows : List CsvRow := [mkRow "t1" 1 0, mkRow "t2" 1 0, mkRow "t3" 1 0,
  mkRow "u1" 10 0, mkRow "u2" 10 0, mkRow "u3" 10 0, mkRow "u4" 10 0,
  mkRow "u5" 10 0]

/-- Claim C1 counterexample input, classifications: theme `T` has three
low-click articles (pool A), themes `U1`…`U5` one high-click article each. -/
def c1Items : List CategorizedItem :=
  [mkItem "t1" "T" "E" "s", mkItem "t2" "T" "E" "s", mkItem "t3" "T" "E" "s",
   mkItem "u1" "U1" "E" "s", mkItem "u2" "U2" "E" "s", mkItem "u3" "U3" "E" "s",
   mkItem "u4" "U4" "E" "s", mkItem "u5" "U5" "E" "s"]

/-- Claim C1 counterexample: at this input the claimed two-pool tiering
(spec sections 4.3/4.5) makes theme `T` (`articleCount = 3 > 2`, the only
pool-A group) tier `top`, but the code tiers `T` as `standard` because its
single selection pool — the overall top 5 by `totalClicks` — holds only the
five one-article themes. -/
theorem C1_discover_tiering_counterexample :
    (∃ s ∈ specTwoPoolDiscoverTiers
        (allDiscoverThemeSummaries (categorizedUrlsOf c1Items c1Rows)),
      s.ContentTheme = "T".data ∧ s.performanceTier = Tier.top)
    ∧ (∃ s ∈ discoverCategorySummariesOf c1Items c1Rows,
      s.ContentTheme = "T".data ∧ s.performanceTier = Tier.standard) := by
  decide

/-- Claim C4 counterexample input, rows. -/
def c4Rows : List CsvRow := [mkRow "u1" 1 0, mkRow "u2" 2 0, mkRow "u3" 3 0,
  mkRow "u4" 4 0, mkRow "u5" 5 0, mkRow "u6" 6 0]

/-- Claim C4 counterexample input: six distinct entity labels under theme
`A` whose composite keys all split back to the displayed pair `("A", "B")`. -/
def c4Items : List CategorizedItem :=
  [mkItem "u1" "A" "B" "s", mkItem "u2" "A" "B::C1" "s",
   mkItem "u3" "A" "B::C2" "s", mkItem "u4" "A" "B::C3" "s",
   mkItem "u5" "A" "B::C4" "s", mkItem "u6" "A" "B::C5" "s"]

/-- Claim C4 counterexample: at this input six groups of the theme+entity
output receive tier `potential`, exceeding the claimed cap of `TOP_N = 5`. -/
theorem C4_caps_counterexample :
    TOP_N < (subcategorySummariesOf c4Items c4Rows).countP
      (fun s => s.performanceTier = Tier.potential) := by decide

/-- Claim C5 counterexample input, rows. -/
def c5Rows : List CsvRow := [mkRow "x1" 100 0, mkRow "x2" 100 0,
  mkRow "x3" 100 0, mkRow "y1" 1 0]

/-- Claim C5 counterexample input: the three-article group `("A", "B::C")`
is pool A, and the one-article group `("A", "B")` shares its recombined
display key `"A::B"`. -/
def c5Items : List CategorizedItem :=
  [mkItem "x1" "A" "B::C" "s", mkItem "x2" "A" "B::C" "s",
   mkItem "x3" "A" "B::C" "s", mkItem "y1" "A" "B" "s"]

/-- Claim C5 counterexample: at this input a theme+entity group with
`articleCount = 1 ≤ 2` receives tier `top`. -/
theorem C5_threshold_counterexample :
    ∃ s ∈ subcategorySummariesOf c5Items c5Rows,
      s.performanceTier = Tier.top
      ∧ s.articleCount ≤ ARTICLE_COUNT_THRESHOLD := by decide

/-! Witnesses. -/

/-- Witness input for claim C1, rows. -/
def c1wRows : List CsvRow := [mkRow "a" 10 0, mkRow "b" 5 0]

/-- Witness input for claim C1, classifications (colon-free labels). -/
def c1wItems : List CategorizedItem :=
  [mkItem "a" "X" "E1" "s", mkItem "b" "Y" "E2" "s"]

/-- The discover theme summary produced for theme `X` at the C1 witness
input. -/
def c1wSum : DiscoverCategorySummary := ⟨⟨"X".data, 1, 10⟩, Tier.potential⟩

/-- The discover entity summary produced for `("X", "E1")` at the C1
witness input. -/
def c1wSubSum : DiscoverSubcategorySummary :=
  ⟨⟨"E1".data, "X".data, 1, 10⟩, Tier.potential⟩

/-- Witness for claim C1's amended theorem at a concrete input. -/
theorem C1_discover_single_pool_tiering_witness :
    (c1wSum ∈ discoverCategorySummariesOf c1wItems c1wRows)
    ∧ (∀ it ∈ c1wItems, ':' ∉ it.contentTheme ∧ ':' ∉ it.entity)
    ∧ (c1wSubSum ∈ discoverSubcategorySummariesOf c1wItems c1wRows)
    ∧ (c1wSum.performanceTier = Tier.potential ↔
        c1wSum.toDiscoverCategorySummaryBase ∈
          discoverThemeTopPerformers (categorizedUrlsOf c1wItems c1wRows)
        ∧ c1wSum.articleCount ≤ ARTICLE_COUNT_THRESHOLD)
    ∧ (c1wSubSum.performanceTier = Tier.potential ↔
        c1wSubSum.toDiscoverSubcategorySummaryBase ∈
          discoverEntityTopPerformers (categorizedUrlsOf c1wItems c1wRows)
        ∧ c1wSubSum.articleCount ≤ ARTICLE_COUNT_THRESHOLD) :=
  ⟨by decide, by decide, by decide,
    ((C1_discover_single_pool_tiering c1wItems c1wRows).1 c1wSum
      (by decide)).2.1,
    ((C1_discover_single_pool_tiering c1wItems c1wRows).2 (by decide) c1wSubSum
      (by decide)).2.1⟩

/-- Witness input for claim C4, rows. -/
def c4wRows : List CsvRow := [mkRow "a" 10 0, mkRow "b" 5 0]

/-- Witness input for claim C4, classifications (colon-free labels). -/
def c4wItems : List CategorizedItem :=
  [mkItem "a" "X" "E1" "s", mkItem "b" "Y" "E2" "s"]

/-- Witness for claim C4's amended theorem at a concrete input. -/
theorem C4_tier_disjointness_caps_witness :
    (∀ it ∈ c4wItems, ':' ∉ it.contentTheme ∧ ':' ∉ it.entity)
    ∧ (subcategorySummariesOf c4wItems c4wRows).countP
        (fun s => s.performanceTier = Tier.top) ≤ TOP_N :=
  ⟨by decide,
    (((C4_tier_disjointness_caps c4wItems c4wRows).2.2.2 (by decide)).1).2.1⟩

/-- Witness input for claim C5, rows. -/
def c5wRows : List CsvRow := [mkRow "a" 10 0, mkRow "b" 5 0]

/-- Witness input for claim C5, classifications (colon-free labels). -/
def c5wItems : List CategorizedItem :=
  [mkItem "a" "X" "E1" "s", mkItem "b" "Y" "E2" "s"]

/-- The theme+entity summary produced for `("X", "E1")` at the C5 witness
input. -/
def c5wSum : SubcategorySummary :=
  ⟨⟨"E1".data, "X".data, 1, 10, 0, 1000⟩, Tier.potential⟩

/-- Witness for claim C5's amended theorem at a concrete input. -/
theorem C5_threshold_partition_witness :
    (∀ it ∈ c5wItems, ':' ∉ it.contentTheme ∧ ':' ∉ it.entity)
    ∧ (c5wSum ∈ subcategorySummariesOf c5wItems c5wRows)
    ∧ (c5wSum.performanceTier = Tier.potential →
        c5wSum.articleCount ≤ ARTICLE_COUNT_THRESHOLD) :=
  ⟨by decide, by decide,
    (((C5_threshold_partition c5wItems c5wRows).2.2.2 (by decide)).1 c5wSum
      (by decide)).2⟩

/-- Witness input for claim C6, rows. -/
def c6Rows : List CsvRow := [mkRow "a" 3 4]

/-- Witness input for claim C6, classifications: one orphan entry whose URL
matches no row. -/
def c6Items : List CategorizedItem := [mkItem "zz" "X" "Y" "Z"]

/-- The merged row produced at the C6 witness input (placeholders filled). -/
def c6Merged : MergedRow :=
  ⟨"a".data, 3, 4, none, none, "Uncategorized".data, "Uncategorized".data,
    "N/A".data⟩

/-- Witness for claim C6's theorem at a concrete input. -/
theorem C6_row_merger_witness :
    c6Merged ∈ mergedData c6Items c6Rows
    ∧ ∃ r ∈ c6Rows, c6Merged.URL = r.URL :=
  ⟨by decide, (C6_row_merger c6Items c6Rows).2.2 c6Merged (by decide)⟩

/-- Witness input for claim C7, rows. -/
def c7Rows : List CsvRow := [mkRow "a" 3 0, mkRow "b" 4 0]

/-- Witness input for claim C7, classifications. -/
def c7Items : List CategorizedItem :=
  [mkItem "a" "X" "E" "s", mkItem "b" "X" "E" "s"]

/-- The theme summary produced at the C7 witness input: 2 articles, 7
clicks, average 3.50 stored as 350. -/
def c7Sum : CategorySummary := ⟨⟨"X".data, 2, 7, 0, 350⟩, Tier.potential⟩

/-- Witness for claim C7's theorem at a concrete input. -/
theorem C7_zero_denominator_guard_witness :
    c7Sum ∈ categorySummariesOf c7Items c7Rows
    ∧ ((c7Sum.averageClicks100 : ℤ) : ℚ) / 100 =
        (if 0 < c7Sum.articleCount then
          round2Q ((c7Sum.totalClicks : ℚ) / (c7Sum.articleCount : ℚ))
        else 0) :=
  ⟨by decide,
    (C7_zero_denominator_guard c7Items c7Rows).1 c7Sum (by decide)⟩

/-- Witness input for claim C8, rows in one order. -/
def c8Rows : List CsvRow := [mkRow "a" 1 0, mkRow "b" 2 0]

/-- Witness input for claim C8, the same rows permuted. -/
def c8RowsPerm : List CsvRow := [mkRow "b" 2 0, mkRow "a" 1 0]

/-- Witness input for claim C8, classifications. -/
def c8Items : List CategorizedItem :=
  [mkItem "a" "X" "E" "s", mkItem "b" "X" "E" "s"]

/-- Witness for claim C8's theorem at a concrete input. -/
theorem C8_grouping_order_independent_witness :
    c8Rows.Perm c8RowsPerm
    ∧ lookupTotals (themeTotals (mergedData c8Items c8Rows)) "X".data =
        lookupTotals (themeTotals (mergedData c8Items c8RowsPerm)) "X".data :=
  ⟨by decide,
    (C8_grouping_order_independent c8Items c8Rows c8RowsPerm
      (by decide)).1 "X".data⟩

/-- Witness input for claim C9, rows. -/
def c9Rows : List CsvRow := [mkRow "a" 10 0, mkRow "b" 5 0]

/-- Witness input for claim C9, classifications. -/
def c9Items : List CategorizedItem :=
  [mkItem "a" "X" "E1" "s", mkItem "b" "Y" "E2" "s"]

/-- The discover theme summary produced for theme `X` at the C9 witness
input. -/
def c9Sum : DiscoverCategorySummary := ⟨⟨"X".data, 1, 10⟩, Tier.potential⟩

/-- Witness for claim C9's theorem at a concrete input. -/
theorem C9_discover_subset_witness :
    c9Sum ∈ discoverCategorySummariesOf c9Items c9Rows
    ∧ (c9Sum.articleCount = ((discoverTop100UrlsOf c9Items c9Rows).filter
        (fun u => u.ContentTheme = c9Sum.ContentTheme)).length
      ∧ c9Sum.totalClicks = (((discoverTop100UrlsOf c9Items c9Rows).filter
        (fun u => u.ContentTheme = c9Sum.ContentTheme)).map
        (fun u => u.Clicks)).sum) :=
  ⟨by decide,
    (C9_discover_subset c9Items c9Rows).2.2.2.1 c9Sum (by decide)⟩
